import Mathlib

/-!
# TAXI capture-session controller

Shallow embedding of `firmware/greatfet_usb/classes/taxi.c`.

The C file is a thin sequencing layer over drivers that live elsewhere
(pin manager, GPIO, SCU, SGPIO, timer, USB streaming).  The functions of the
file itself (`set_up_taxi_gpio`, `tear_down_taxi_gpio`, `initialize_taxi`,
`terminate_taxi`, `frame_sync_wait`, `verb_start_receive`, `verb_stop`) are
translated line by line.  The drivers are represented by

* a `World`: the pin-reservation registry, the direction and level of every
  GPIO pin, the run state of the capture engine and of the USB transport, a
  counter of hardware reads, and the trace of driver calls made so far;
* an `Env`: the answers the drivers give (pin translation tables, return codes,
  the free-running timer and the SGPIO pin-state register).

Return codes are C `int`s that are only compared with zero and passed on, so
they are `Int`.  The timer is a `uint32_t`, so timer arithmetic is done modulo
`2 ^ 32`.  The `pr_warning` / `pr_info` / `pr_error` calls only write to the debug
log and are left out.
-/

namespace Taxi

/-! ## Constants and static tables -/

/-- The class number of this module, `CLASS_NUMBER_SELF`. -/
def CLASS_NUMBER_SELF : Nat := 0x199

/-- The errno value `EINVAL`. -/
def EINVAL : Int := 22

/-- The errno value `EBUSY`. -/
def EBUSY : Int := 16

/-- A GPIO pin, `gpio_pin_t`: port and pin within the port. -/
structure GpioPin where
  port : Nat
  pin : Nat
deriving DecidableEq, Repr

/-- Pull resistor settings; the file only uses `SCU_NO_PULL`. -/
inductive PullResistors where
  | SCU_NO_PULL
deriving DecidableEq, Repr

/-- One entry of an SGPIO pin table, `sgpio_pin_configuration_t`. -/
structure SgpioPinConfiguration where
  sgpio_pin : Nat
  scu_group : Nat
  scu_pin : Nat
  pull_resistors : PullResistors
deriving DecidableEq, Repr

/-- The data strobe pin, SGPIO9 on P4_3. -/
def taxi_dstrb_pin : SgpioPinConfiguration :=
  { sgpio_pin := 9, scu_group := 4, scu_pin := 3, pull_resistors := PullResistors.SCU_NO_PULL }

/-- Output enable of U4. -/
def u4_oe : GpioPin := { port := 2, pin := 11 }

/-- Output enable of U5. -/
def u5_oe : GpioPin := { port := 3, pin := 3 }

/-- The trigger line. -/
def trigger : GpioPin := { port := 0, pin := 4 }

/-- The local array `gpio_pins` of `initialize_taxi` and `terminate_taxi`. -/
def gpio_pins : List GpioPin := [u4_oe, u5_oe, trigger]

/-! ## Driver calls and the world they act on -/

/-- A call into a driver, with the arguments that matter and, where the driver
answers with a code chosen by the environment, that code.  `frame_sync_wait`
marks one completed run of the synchronizer loop. -/
inductive Action where
  | pin_ensure_reservation (group pin cls : Nat)
  | pin_release_reservation (group pin : Nat) (rc : Int)
  | gpio_configure_pinmux (p : GpioPin) (rc : Int)
  | gpio_set_pin_direction (p : GpioPin) (output : Bool)
  | gpio_set_pin (p : GpioPin)
  | platform_scu_configure_pin_fast_io (group pin func : Nat) (pull : PullResistors)
  | sgpio_set_up_functions (rc : Int)
  | usb_streaming_start_streaming_to_host
  | usb_streaming_stop_streaming_to_host
  | frame_sync_wait
  | sgpio_run
  | sgpio_halt
deriving DecidableEq, Repr

/-- The pin-reservation registry: owner class of an SCU pin, or free. -/
abbrev Registry := Nat → Nat → Option Nat

/-- The registry with the record of one SCU pin replaced. -/
def Registry.put (reg : Registry) (g p : Nat) (v : Option Nat) : Registry :=
  fun g' p' => if g' = g ∧ p' = p then v else reg g' p'

/-- Modelled from the spec: the registry side of `pin_ensure_reservation`, which
is not part of this file.  A request for a pin owned by a different class fails
without side effects; otherwise the pin is recorded for the requesting class. -/
def Registry.ensure (reg : Registry) (g p cls : Nat) : Bool × Registry :=
  match reg g p with
  | some owner => if owner ≠ cls then (false, reg) else (true, reg)
  | none => (true, reg.put g p (some cls))

/-- Modelled from the spec: the registry side of `pin_release_reservation`, which
is not part of this file.  A release that reports success (code 0) frees the
pin; one that reports an error leaves the record as it is. -/
def Registry.release (reg : Registry) (g p : Nat) (rc : Int) : Registry :=
  if rc = 0 then reg.put g p none else reg

/-- Everything the module's calls can change. -/
structure World where
  /-- The static flag `taxi_initialized`. -/
  taxi_initialized : Bool
  /-- The pin manager's records. -/
  reservation : Registry
  /-- Direction of each GPIO pin, `true` for output. -/
  direction : GpioPin → Bool
  /-- Output level of each GPIO pin. -/
  level : GpioPin → Bool
  /-- Whether the SGPIO capture engine is running. -/
  sgpio_running : Bool
  /-- Whether the USB transport is draining the buffer to the host. -/
  streaming : Bool
  /-- Number of timer and register reads made so far. -/
  ticks : Nat
  /-- Driver calls made so far, oldest first. -/
  trace : List Action

/-- Append a driver call to the trace. -/
def World.emit (w : World) (a : Action) : World :=
  { w with trace := w.trace ++ [a] }

/-- The answers of the drivers that this file cannot see into. -/
structure Env where
  /-- SCU group of a GPIO pin, `0xff` when there is none. -/
  gpio_get_group_number : GpioPin → Nat
  /-- SCU pin of a GPIO pin, `0xff` when there is none. -/
  gpio_get_pin_number : GpioPin → Nat
  /-- Return code of `gpio_configure_pinmux`. -/
  gpio_configure_pinmux : World → GpioPin → Int
  /-- Return value of `pin_release_reservation`, as the `int` the caller sees. -/
  pin_release_reservation : World → Nat → Nat → Int
  /-- Return code of `sgpio_set_up_functions`. -/
  sgpio_set_up_functions : World → Int
  /-- Value of the free-running timer at each hardware read. -/
  clock : Nat → Nat
  /-- Value of the SGPIO pin-state register at each hardware read. -/
  sgpio_pin_state : Nat → Nat

/-- The `uint8_t scu_group` local of the two GPIO helpers. -/
def scu_group_of (env : Env) (pin : GpioPin) : Nat := env.gpio_get_group_number pin % 256

/-- The `uint8_t scu_pin` local of the two GPIO helpers. -/
def scu_pin_of (env : Env) (pin : GpioPin) : Nat := env.gpio_get_pin_number pin % 256

/-- Modelled from the spec: `pin_ensure_reservation` of the pin manager. -/
def pin_ensure_reservation (g p cls : Nat) (w : World) : Bool × World :=
  ((w.reservation.ensure g p cls).1,
   { w with reservation := (w.reservation.ensure g p cls).2,
            trace := w.trace ++ [Action.pin_ensure_reservation g p cls] })

/-- Modelled from the spec: `pin_release_reservation` of the pin manager. -/
def pin_release_reservation (env : Env) (g p : Nat) (w : World) : Int × World :=
  (env.pin_release_reservation w g p,
   { w with reservation := w.reservation.release g p (env.pin_release_reservation w g p),
            trace := w.trace ++ [Action.pin_release_reservation g p (env.pin_release_reservation w g p)] })

/-- Modelled from the spec: `gpio_configure_pinmux` of the GPIO driver; its code
is the environment's. -/
def gpio_configure_pinmux (env : Env) (pin : GpioPin) (w : World) : Int × World :=
  (env.gpio_configure_pinmux w pin,
   w.emit (Action.gpio_configure_pinmux pin (env.gpio_configure_pinmux w pin)))

/-- Modelled from the spec: `gpio_set_pin_direction` of the GPIO driver. -/
def gpio_set_pin_direction (pin : GpioPin) (output : Bool) (w : World) : World :=
  { w with direction := fun q => if q = pin then output else w.direction q,
           trace := w.trace ++ [Action.gpio_set_pin_direction pin output] }

/-- Modelled from the spec: `gpio_set_pin` of the GPIO driver, which drives the
pin high. -/
def gpio_set_pin (pin : GpioPin) (w : World) : World :=
  { w with level := fun q => if q = pin then true else w.level q,
           trace := w.trace ++ [Action.gpio_set_pin pin] }

/-- Modelled from the spec: `platform_scu_configure_pin_fast_io` of the SCU
driver. -/
def platform_scu_configure_pin_fast_io (g p func : Nat) (pull : PullResistors) (w : World) : World :=
  w.emit (Action.platform_scu_configure_pin_fast_io g p func pull)

/-- Modelled from the spec: `sgpio_set_up_functions` of the SGPIO driver; its code
is the environment's. -/
def sgpio_set_up_functions (env : Env) (w : World) : Int × World :=
  (env.sgpio_set_up_functions w, w.emit (Action.sgpio_set_up_functions (env.sgpio_set_up_functions w)))

/-- Modelled from the spec: `sgpio_run` of the SGPIO driver arms the capture
engine. -/
def sgpio_run (w : World) : World :=
  { w with sgpio_running := true, trace := w.trace ++ [Action.sgpio_run] }

/-- Modelled from the spec: `sgpio_halt` of the SGPIO driver halts the capture
engine. -/
def sgpio_halt (w : World) : World :=
  { w with sgpio_running := false, trace := w.trace ++ [Action.sgpio_halt] }

/-- Modelled from the spec: `usb_streaming_start_streaming_to_host`. -/
def usb_streaming_start_streaming_to_host (w : World) : World :=
  { w with streaming := true, trace := w.trace ++ [Action.usb_streaming_start_streaming_to_host] }

/-- Modelled from the spec: `usb_streaming_stop_streaming_to_host`. -/
def usb_streaming_stop_streaming_to_host (w : World) : World :=
  { w with streaming := false, trace := w.trace ++ [Action.usb_streaming_stop_streaming_to_host] }

/-- Modelled from the spec: `get_time` of the timer driver, the `uint32_t` timer
value at hardware read number `tick`. -/
def get_time (env : Env) (tick : Nat) : Nat := env.clock tick % 2 ^ 32

/-- Modelled from the spec: `get_time_since` of the timer driver, the `uint32_t`
difference between the timer at read number `tick` and `base`. -/
def get_time_since (env : Env) (base tick : Nat) : Nat :=
  (get_time env tick + 2 ^ 32 - base % 2 ^ 32) % 2 ^ 32

/-! ## The functions of `taxi.c` -/

/-- Configures a given GPIO port/pin to be used for TAXI purposes. -/
def set_up_taxi_gpio (env : Env) (pin : GpioPin) (w : World) : Int × World :=
  if scu_group_of env pin = 0xff ∨ scu_pin_of env pin = 0xff then
    (EINVAL, w)
  else
    let r := pin_ensure_reservation (scu_group_of env pin) (scu_pin_of env pin) CLASS_NUMBER_SELF w
    if r.1 = false then
      (EBUSY, r.2)
    else
      let m := gpio_configure_pinmux env pin r.2
      if m.1 ≠ 0 then
        (m.1, m.2)
      else
        (0, m.2)

/-- Releases a given GPIO port/pin. -/
def tear_down_taxi_gpio (env : Env) (pin : GpioPin) (w : World) : Int × World :=
  if scu_group_of env pin = 0xff ∨ scu_pin_of env pin = 0xff then
    (EINVAL, w)
  else
    pin_release_reservation env (scu_group_of env pin) (scu_pin_of env pin)
      (gpio_set_pin_direction pin false w)

/-- The `for` loop of `initialize_taxi` over the pins still to be set up. -/
def initialize_taxi_loop (env : Env) : List GpioPin → World → Int × World
  | [], w => (0, w)
  | pin :: rest, w =>
    let r := set_up_taxi_gpio env pin w
    if r.1 ≠ 0 then
      (r.1, r.2)
    else
      initialize_taxi_loop env rest (gpio_set_pin pin (gpio_set_pin_direction pin true r.2))

/-- Set up the TAXI API: 0 on success, or an error code on failure. -/
def initialize_taxi (env : Env) (w : World) : Int × World :=
  let r := initialize_taxi_loop env gpio_pins w
  if r.1 ≠ 0 then
    (r.1, r.2)
  else
    (0, { r.2 with taxi_initialized := true })

/-- The `for` loop of `terminate_taxi` over the pins still to be released. -/
def terminate_taxi_loop (env : Env) : List GpioPin → World → Int × World
  | [], w => (0, w)
  | pin :: rest, w =>
    let r := tear_down_taxi_gpio env pin w
    if r.1 ≠ 0 then
      (r.1, r.2)
    else
      terminate_taxi_loop env rest r.2

/-- Tear down the TAXI API, releasing the relevant resources. -/
def terminate_taxi (env : Env) (w : World) : Int × World :=
  let r := terminate_taxi_loop env gpio_pins (sgpio_halt w)
  if r.1 ≠ 0 then
    (r.1, r.2)
  else
    (0, { r.2 with taxi_initialized := false })

/-- One pass of the `while` loop of `frame_sync_wait`: the hardware read at which
the strobe was sampled, the sample, and whether the baseline was reset. -/
structure SyncSample where
  tick : Nat
  dstrb : Bool
  reset : Bool
deriving DecidableEq, Repr

/-- A completed run of `frame_sync_wait`: the hardware read at which the loop
condition failed, the last baseline, and the passes made. -/
structure SyncRun where
  exit_tick : Nat
  base : Nat
  samples : List SyncSample
deriving DecidableEq, Repr

/-- The `while` loop of `frame_sync_wait`, `duration = 1000`.  Each evaluation of
the condition, each sample and each `get_time()` is one hardware read; `fuel`
bounds the number of passes. -/
def frame_sync_loop (env : Env) : Nat → Nat → Bool → Nat → Option SyncRun
  | 0, _, _, _ => none
  | fuel + 1, base, prev, tick =>
    if get_time_since env base tick < 1000 then
      let dstrb := decide (env.sgpio_pin_state (tick + 1) &&& (1 <<< 9) ≠ 0)
      if (!prev && dstrb) = true then
        (frame_sync_loop env fuel (get_time env (tick + 2)) dstrb (tick + 3)).map
          (fun r => { r with samples := { tick := tick + 1, dstrb := dstrb, reset := true } :: r.samples })
      else
        (frame_sync_loop env fuel base dstrb (tick + 2)).map
          (fun r => { r with samples := { tick := tick + 1, dstrb := dstrb, reset := false } :: r.samples })
    else
      some { exit_tick := tick, base := base, samples := [] }

/-- The body of `frame_sync_wait` started at hardware read `t0`:
`base = get_time()`, `prev = false`, then the loop. -/
def frame_sync_run (env : Env) (fuel t0 : Nat) : Option SyncRun :=
  frame_sync_loop env fuel (get_time env t0) false (t0 + 1)

/-- The call `frame_sync_wait(&taxi)` as a step of the world: it only consumes
hardware reads.  `none` when the loop is still polling after `fuel` passes. -/
def frame_sync_wait (env : Env) (fuel : Nat) (w : World) : Option World :=
  (frame_sync_run env fuel w.ticks).map
    (fun r => { w with ticks := r.exit_tick + 1, trace := w.trace ++ [Action.frame_sync_wait] })

/-- The verb `start_receive`. -/
def verb_start_receive (env : Env) (fuel : Nat) (w : World) : Option (Int × World) :=
  let r := initialize_taxi env w
  if r.1 ≠ 0 then
    some (r.1, r.2)
  else
    let pin_config := taxi_dstrb_pin
    let s := sgpio_set_up_functions env
      (platform_scu_configure_pin_fast_io pin_config.scu_group pin_config.scu_pin 7 pin_config.pull_resistors r.2)
    if s.1 ≠ 0 then
      some (s.1, s.2)
    else
      (frame_sync_wait env fuel (usb_streaming_start_streaming_to_host s.2)).bind fun w1 =>
      (frame_sync_wait env fuel w1).bind fun w2 =>
      some (0, sgpio_run w2)

/-- The verb `stop`. -/
def verb_stop (env : Env) (w : World) : Int × World :=
  terminate_taxi env (usb_streaming_stop_streaming_to_host w)

/-- The two verbs issued in turn, as a dispatcher would: `start_receive`, then
`stop` on the world it left; both status codes and the world after `stop`. -/
def start_stop (env : Env) (fuel : Nat) (w : World) : Option (Int × Int × World) :=
  (verb_start_receive env fuel w).map fun r => (r.1, (verb_stop env r.2).1, (verb_stop env r.2).2)

/-- The verbs `start_receive` and `stop` issued `n` times in turn; `none` as soon
as a verb returns non-zero (or the synchronizer is still polling when the fuel
runs out), otherwise the world after the last `stop`. -/
def start_stop_cycles (env : Env) (fuel : Nat) : Nat → World → Option World
  | 0, w => some w
  | n + 1, w =>
    (start_stop env fuel w).bind fun r =>
      if r.1 = 0 ∧ r.2.1 = 0 then start_stop_cycles env fuel n r.2.2 else none

/-- The state of the session and of the hardware it drives: the world without the
hardware read counter and the trace. -/
structure SessionView where
  taxi_initialized : Bool
  reservation : Registry
  direction : GpioPin → Bool
  level : GpioPin → Bool
  sgpio_running : Bool
  streaming : Bool

/-- The session view of a world. -/
def World.view (w : World) : SessionView :=
  { taxi_initialized := w.taxi_initialized
    reservation := w.reservation
    direction := w.direction
    level := w.level
    sgpio_running := w.sgpio_running
    streaming := w.streaming }

/-! ## Vocabulary for statements about traces and states -/

/-- The driver call releases a reservation. -/
def Action.is_release : Action → Bool
  | Action.pin_release_reservation _ _ _ => true
  | _ => false

/-- The driver call writes the mux, direction or level of GPIO pin `P`. -/
def Action.writes_gpio (P : GpioPin) : Action → Bool
  | Action.gpio_configure_pinmux p _ => decide (p = P)
  | Action.gpio_set_pin_direction p _ => decide (p = P)
  | Action.gpio_set_pin p => decide (p = P)
  | _ => false

/-- The calls that acquire one control pin successfully: reserve it, mux it, make
it an output, drive it high. -/
def acquire_calls (env : Env) (pin : GpioPin) : List Action :=
  [Action.pin_ensure_reservation (scu_group_of env pin) (scu_pin_of env pin) CLASS_NUMBER_SELF,
   Action.gpio_configure_pinmux pin 0,
   Action.gpio_set_pin_direction pin true,
   Action.gpio_set_pin pin]

/-- The calls that acquire a list of pins successfully, in order. -/
def acquire_trace (env : Env) : List GpioPin → List Action
  | [] => []
  | pin :: rest => acquire_calls env pin ++ acquire_trace env rest

/-- The driver call belongs to the acquisition of a pin. -/
def Action.is_acquire : Action → Bool
  | Action.pin_ensure_reservation _ _ _ => true
  | Action.gpio_configure_pinmux _ _ => true
  | Action.gpio_set_pin_direction _ _ => true
  | Action.gpio_set_pin _ => true
  | _ => false

/-- A pin table for the three control pins (GPIO2[11] on P5_2, GPIO3[3] on
P6_4, GPIO0[4] on P1_0): the SCU group, `0xff` for any other pin. -/
def board_group (pin : GpioPin) : Nat :=
  if pin = u4_oe then 5 else if pin = u5_oe then 6 else if pin = trigger then 1 else 0xff

/-- The SCU pin number in the same table. -/
def board_pin (pin : GpioPin) : Nat :=
  if pin = u4_oe then 2 else if pin = u5_oe then 4 else if pin = trigger then 0 else 0xff

/-- An environment in which every driver call succeeds, the strobe line stays
low and the timer advances 400 units per hardware read. -/
def quiet_env : Env :=
  { gpio_get_group_number := board_group
    gpio_get_pin_number := board_pin
    gpio_configure_pinmux := fun _ _ => 0
    pin_release_reservation := fun _ _ _ => 0
    sgpio_set_up_functions := fun _ => 0
    clock := fun t => 400 * t
    sgpio_pin_state := fun _ => 0 }

/-- The environment `quiet_env`, except that `sgpio_set_up_functions` fails with
code 7. -/
def config_fail_env : Env :=
  { quiet_env with sgpio_set_up_functions := fun _ => 7 }

/-- The environment `quiet_env`, except that the pin manager answers 5 when asked
to release P5_2, the SCU pin of `u4_oe`. -/
def stuck_env : Env :=
  { quiet_env with pin_release_reservation := fun _ g p => if g = 5 ∧ p = 2 then 5 else 0 }

/-- The environment `quiet_env`, except that the pin manager answers 7 when asked
to release a pin that is not reserved. -/
def strict_env : Env :=
  { quiet_env with
    pin_release_reservation := fun w g p => if w.reservation g p = none then 7 else 0 }

/-- A world in mid-capture: the three control pins reserved for this class,
outputs and high, the transport draining, the engine running. -/
def streaming_world : World :=
  { taxi_initialized := true
    reservation := Registry.put (Registry.put (Registry.put (fun _ _ => none)
      5 2 (some CLASS_NUMBER_SELF)) 6 4 (some CLASS_NUMBER_SELF)) 1 0 (some CLASS_NUMBER_SELF)
    direction := fun q => decide (q ∈ gpio_pins)
    level := fun q => decide (q ∈ gpio_pins)
    sgpio_running := true
    streaming := true
    ticks := 0
    trace := [] }

/-- The calls of `verb_start_receive` after the control pins are acquired. -/
def arm_calls : List Action :=
  [Action.platform_scu_configure_pin_fast_io taxi_dstrb_pin.scu_group taxi_dstrb_pin.scu_pin 7
      taxi_dstrb_pin.pull_resistors,
   Action.sgpio_set_up_functions 0,
   Action.usb_streaming_start_streaming_to_host,
   Action.frame_sync_wait,
   Action.frame_sync_wait,
   Action.sgpio_run]

/-- The environment `quiet_env`, except that `gpio_configure_pinmux` answers 22
(the value of `EINVAL`) for `u4_oe` and 16 (the value of `EBUSY`) for any other
pin. -/
def mux_errno_env : Env :=
  { quiet_env with gpio_configure_pinmux := fun _ q => if q = u4_oe then 22 else 16 }

/-- The environment `quiet_env`, every driver call succeeding, except that the
timer advances 100 units per hardware read and the strobe pulses: bit 9 reads
high at every fifth hardware read (reads 2, 7, 12, ...). -/
def pulsing_env : Env :=
  { quiet_env with
    clock := fun t => 100 * t
    sgpio_pin_state := fun t => if t % 5 = 2 then 512 else 0 }

/-- The world after reset: nothing reserved, every pin an input, nothing running. -/
def idle_world : World :=
  { taxi_initialized := false
    reservation := fun _ _ => none
    direction := fun _ => false
    level := fun _ => false
    sgpio_running := false
    streaming := false
    ticks := 0
    trace := [] }

/-- The world after reset in which another class (`0x10A`) holds P6_4, the SCU
pin of `u5_oe`. -/
def u5_taken_world : World :=
  { idle_world with reservation := Registry.put (fun _ _ => none) 6 4 (some 0x10A) }

/-! ## Basic facts about the driver calls -/

theorem Registry.put_same (reg : Registry) (g p : Nat) (v : Option Nat) :
    reg.put g p v g p = v := by
  simp [Registry.put]

theorem Registry.put_other (reg : Registry) (g p g' p' : Nat) (v : Option Nat)
    (h : ¬ (g' = g ∧ p' = p)) : reg.put g p v g' p' = reg g' p' := by
  simp [Registry.put, h]

/-- A reservation request never takes a pin away from its owner. -/
theorem Registry.ensure_keeps (reg : Registry) (g p cls g' p' c : Nat)
    (h : reg g' p' = some c) : (reg.ensure g p cls).2 g' p' = some c := by
  cases hgp : reg g p with
  | some owner =>
    by_cases ho : owner = cls <;> simp [Registry.ensure, hgp, ho, h]
  | none =>
    have hne : ¬ (g' = g ∧ p' = p) := by
      rintro ⟨rfl, rfl⟩
      rw [hgp] at h
      cases h
    simp only [Registry.ensure, hgp]
    rw [Registry.put_other _ _ _ _ _ _ hne]
    exact h

/-- A granted reservation request leaves the pin with the requesting class. -/
theorem Registry.ensure_granted (reg : Registry) (g p cls : Nat)
    (h : (reg.ensure g p cls).1 = true) : (reg.ensure g p cls).2 g p = some cls := by
  cases hgp : reg g p with
  | some owner =>
    by_cases ho : owner = cls
    · simp [Registry.ensure, hgp, ho]
    · simp [Registry.ensure, hgp, ho] at h
  | none =>
    simp [Registry.ensure, hgp, Registry.put]

/-- A request is refused exactly when another class owns the pin. -/
theorem Registry.ensure_refused_iff (reg : Registry) (g p cls : Nat) :
    (reg.ensure g p cls).1 = false ↔ ∃ c, reg g p = some c ∧ c ≠ cls := by
  cases hgp : reg g p with
  | some owner =>
    by_cases ho : owner = cls <;> simp [Registry.ensure, hgp, ho]
  | none =>
    simp [Registry.ensure, hgp]

/-- A refused request changes nothing in the registry. -/
theorem Registry.ensure_refused_same (reg : Registry) (g p cls : Nat)
    (h : (reg.ensure g p cls).1 = false) : (reg.ensure g p cls).2 = reg := by
  cases hgp : reg g p with
  | some owner =>
    by_cases ho : owner = cls <;> simp [Registry.ensure, hgp, ho]
  | none =>
    simp [Registry.ensure, hgp] at h

/-- The three exits of `set_up_taxi_gpio`, in check order. -/
theorem set_up_taxi_gpio_eq (env : Env) (pin : GpioPin) (w : World) :
    set_up_taxi_gpio env pin w =
      if scu_group_of env pin = 0xff ∨ scu_pin_of env pin = 0xff then (EINVAL, w)
      else if (pin_ensure_reservation (scu_group_of env pin) (scu_pin_of env pin)
                CLASS_NUMBER_SELF w).1 = false then
        (EBUSY, (pin_ensure_reservation (scu_group_of env pin) (scu_pin_of env pin)
                CLASS_NUMBER_SELF w).2)
      else gpio_configure_pinmux env pin
        (pin_ensure_reservation (scu_group_of env pin) (scu_pin_of env pin)
                CLASS_NUMBER_SELF w).2 := by
  by_cases hinv : scu_group_of env pin = 0xff ∨ scu_pin_of env pin = 0xff
  · simp only [set_up_taxi_gpio, if_pos hinv]
  · by_cases hres : (pin_ensure_reservation (scu_group_of env pin) (scu_pin_of env pin)
        CLASS_NUMBER_SELF w).1 = false
    · simp only [set_up_taxi_gpio, if_neg hinv, if_pos hres]
    · by_cases hz : (gpio_configure_pinmux env pin
          (pin_ensure_reservation (scu_group_of env pin) (scu_pin_of env pin)
            CLASS_NUMBER_SELF w).2).1 = 0
      · simp only [set_up_taxi_gpio, if_neg hinv, if_neg hres, ne_eq, hz, not_true_eq_false,
          if_false]
        exact Prod.ext hz.symm rfl
      · simp only [set_up_taxi_gpio, if_neg hinv, if_neg hres, ne_eq, hz, not_false_eq_true,
          if_true]

/-! ## Acquire error classification (`set_up_taxi_gpio`) -/

/-- C7 (as stated, refuted): `u4_oe` and `u5_oe` translate to valid SCU pins and
their reservation requests are granted, yet `set_up_taxi_gpio` returns `EINVAL`
for the one and `EBUSY` for the other, after the request and the mux call: the
value is the code that `gpio_configure_pinmux` answered, passed on as it is. -/
theorem set_up_taxi_gpio_passes_mux_code :
    ¬ (scu_group_of mux_errno_env u4_oe = 0xff ∨ scu_pin_of mux_errno_env u4_oe = 0xff) ∧
    (pin_ensure_reservation (scu_group_of mux_errno_env u4_oe) (scu_pin_of mux_errno_env u4_oe)
      CLASS_NUMBER_SELF idle_world).1 = true ∧
    (set_up_taxi_gpio mux_errno_env u4_oe idle_world).1 = EINVAL ∧
    (set_up_taxi_gpio mux_errno_env u4_oe idle_world).2.trace =
      [Action.pin_ensure_reservation 5 2 CLASS_NUMBER_SELF,
       Action.gpio_configure_pinmux u4_oe 22] ∧
    ¬ (scu_group_of mux_errno_env u5_oe = 0xff ∨ scu_pin_of mux_errno_env u5_oe = 0xff) ∧
    (pin_ensure_reservation (scu_group_of mux_errno_env u5_oe) (scu_pin_of mux_errno_env u5_oe)
      CLASS_NUMBER_SELF idle_world).1 = true ∧
    (set_up_taxi_gpio mux_errno_env u5_oe idle_world).1 = EBUSY ∧
    (set_up_taxi_gpio mux_errno_env u5_oe idle_world).2.trace =
      [Action.pin_ensure_reservation 6 4 CLASS_NUMBER_SELF,
       Action.gpio_configure_pinmux u5_oe 16] := by
  decide

/-- C7 (amended): `set_up_taxi_gpio` classifies its failures in check order.  When the
group or pin number translates to `0xff` it returns `EINVAL` and the world is
untouched (no reservation request, no mux call); otherwise, when
`pin_ensure_reservation` for class `0x199` fails, it returns `EBUSY` having made
only the reservation request; otherwise it returns the code of
`gpio_configure_pinmux`.  It returns 0 exactly when all three steps succeed, and
which check ended the call can be read off the calls made: none at all exactly
for an invalid pin, only the reservation request exactly for a busy pin.  Since
the code of `gpio_configure_pinmux` is passed on as it is, the returned value is
`EINVAL` (`EBUSY`) exactly for an invalid (busy) pin as long as the mux call does
not itself answer `EINVAL` (`EBUSY`). -/
theorem set_up_taxi_gpio_error_classification (env : Env) (pin : GpioPin) (w : World) :
    ((scu_group_of env pin = 0xff ∨ scu_pin_of env pin = 0xff) →
        set_up_taxi_gpio env pin w = (EINVAL, w)) ∧
    (¬ (scu_group_of env pin = 0xff ∨ scu_pin_of env pin = 0xff) →
      (pin_ensure_reservation (scu_group_of env pin) (scu_pin_of env pin) CLASS_NUMBER_SELF w).1 = false →
        (set_up_taxi_gpio env pin w).1 = EBUSY ∧
        (set_up_taxi_gpio env pin w).2.trace = w.trace ++
          [Action.pin_ensure_reservation (scu_group_of env pin) (scu_pin_of env pin) CLASS_NUMBER_SELF]) ∧
    (¬ (scu_group_of env pin = 0xff ∨ scu_pin_of env pin = 0xff) →
      (pin_ensure_reservation (scu_group_of env pin) (scu_pin_of env pin) CLASS_NUMBER_SELF w).1 = true →
        (set_up_taxi_gpio env pin w).1 = env.gpio_configure_pinmux
          (pin_ensure_reservation (scu_group_of env pin) (scu_pin_of env pin) CLASS_NUMBER_SELF w).2 pin ∧
        (set_up_taxi_gpio env pin w).2.trace = w.trace ++
          [Action.pin_ensure_reservation (scu_group_of env pin) (scu_pin_of env pin) CLASS_NUMBER_SELF,
           Action.gpio_configure_pinmux pin (env.gpio_configure_pinmux
             (pin_ensure_reservation (scu_group_of env pin) (scu_pin_of env pin) CLASS_NUMBER_SELF w).2 pin)]) ∧
    ((set_up_taxi_gpio env pin w).1 = 0 ↔
      ¬ (scu_group_of env pin = 0xff ∨ scu_pin_of env pin = 0xff) ∧
      (pin_ensure_reservation (scu_group_of env pin) (scu_pin_of env pin) CLASS_NUMBER_SELF w).1 = true ∧
      env.gpio_configure_pinmux
        (pin_ensure_reservation (scu_group_of env pin) (scu_pin_of env pin) CLASS_NUMBER_SELF w).2 pin = 0) ∧
    ((scu_group_of env pin = 0xff ∨ scu_pin_of env pin = 0xff) ↔
      (set_up_taxi_gpio env pin w).2.trace = w.trace) ∧
    ((¬ (scu_group_of env pin = 0xff ∨ scu_pin_of env pin = 0xff) ∧
      (pin_ensure_reservation (scu_group_of env pin) (scu_pin_of env pin) CLASS_NUMBER_SELF w).1 = false) ↔
      (set_up_taxi_gpio env pin w).2.trace = w.trace ++
        [Action.pin_ensure_reservation (scu_group_of env pin) (scu_pin_of env pin) CLASS_NUMBER_SELF]) ∧
    (env.gpio_configure_pinmux
        (pin_ensure_reservation (scu_group_of env pin) (scu_pin_of env pin) CLASS_NUMBER_SELF w).2 pin
        ≠ EINVAL →
      ((set_up_taxi_gpio env pin w).1 = EINVAL ↔
        (scu_group_of env pin = 0xff ∨ scu_pin_of env pin = 0xff))) ∧
    (env.gpio_configure_pinmux
        (pin_ensure_reservation (scu_group_of env pin) (scu_pin_of env pin) CLASS_NUMBER_SELF w).2 pin
        ≠ EBUSY →
      ((set_up_taxi_gpio env pin w).1 = EBUSY ↔
        (¬ (scu_group_of env pin = 0xff ∨ scu_pin_of env pin = 0xff) ∧
         (pin_ensure_reservation (scu_group_of env pin) (scu_pin_of env pin)
            CLASS_NUMBER_SELF w).1 = false))) := by
  rw [set_up_taxi_gpio_eq]
  by_cases hinv : scu_group_of env pin = 0xff ∨ scu_pin_of env pin = 0xff
  · simp [hinv, EINVAL, EBUSY]
  · cases hres : (pin_ensure_reservation (scu_group_of env pin) (scu_pin_of env pin) CLASS_NUMBER_SELF w).1
    · simp [hinv, hres, EBUSY, EINVAL]
      simp [pin_ensure_reservation]
    · simp [hinv, hres]
      simp [pin_ensure_reservation, gpio_configure_pinmux, World.emit]

/-! ## Frame facts for `set_up_taxi_gpio` and the acquire loop -/

theorem set_up_taxi_gpio_taxi_initialized (env : Env) (pin : GpioPin) (w : World) :
    (set_up_taxi_gpio env pin w).2.taxi_initialized = w.taxi_initialized := by
  rw [set_up_taxi_gpio_eq]
  split_ifs <;> simp [pin_ensure_reservation, gpio_configure_pinmux, World.emit]

theorem set_up_taxi_gpio_direction (env : Env) (pin : GpioPin) (w : World) :
    (set_up_taxi_gpio env pin w).2.direction = w.direction := by
  rw [set_up_taxi_gpio_eq]
  split_ifs <;> simp [pin_ensure_reservation, gpio_configure_pinmux, World.emit]

theorem set_up_taxi_gpio_level (env : Env) (pin : GpioPin) (w : World) :
    (set_up_taxi_gpio env pin w).2.level = w.level := by
  rw [set_up_taxi_gpio_eq]
  split_ifs <;> simp [pin_ensure_reservation, gpio_configure_pinmux, World.emit]

/-- `set_up_taxi_gpio` never takes a pin away from its owner. -/
theorem set_up_taxi_gpio_keeps (env : Env) (pin : GpioPin) (w : World) (g p c : Nat)
    (h : w.reservation g p = some c) : (set_up_taxi_gpio env pin w).2.reservation g p = some c := by
  rw [set_up_taxi_gpio_eq]
  split_ifs
  · exact h
  · simpa [pin_ensure_reservation] using Registry.ensure_keeps _ _ _ _ _ _ _ h
  · simpa [pin_ensure_reservation, gpio_configure_pinmux, World.emit] using
      Registry.ensure_keeps _ _ _ _ _ _ _ h

/-- After a successful `set_up_taxi_gpio` the pin is reserved for this class. -/
theorem set_up_taxi_gpio_reserved (env : Env) (pin : GpioPin) (w : World)
    (h : (set_up_taxi_gpio env pin w).1 = 0) :
    (set_up_taxi_gpio env pin w).2.reservation (scu_group_of env pin) (scu_pin_of env pin)
      = some CLASS_NUMBER_SELF := by
  rw [set_up_taxi_gpio_eq] at h ⊢
  split_ifs at h ⊢ with hinv hres
  · simp [EINVAL] at h
  · simp [EBUSY] at h
  · have hres' : (w.reservation.ensure (scu_group_of env pin) (scu_pin_of env pin)
        CLASS_NUMBER_SELF).1 = true := by
      simpa [pin_ensure_reservation] using hres
    simpa [pin_ensure_reservation, gpio_configure_pinmux, World.emit] using
      Registry.ensure_granted _ _ _ _ hres'

/-- The calls of `set_up_taxi_gpio` are appended to the trace and release nothing. -/
theorem set_up_taxi_gpio_no_release (env : Env) (pin : GpioPin) (w : World) :
    ∃ d, (set_up_taxi_gpio env pin w).2.trace = w.trace ++ d ∧ ∀ a ∈ d, a.is_release = false := by
  rw [set_up_taxi_gpio_eq]
  split_ifs
  · exact ⟨[], by simp, by simp⟩
  · exact ⟨[Action.pin_ensure_reservation (scu_group_of env pin) (scu_pin_of env pin)
      CLASS_NUMBER_SELF], by simp [pin_ensure_reservation], by simp [Action.is_release]⟩
  · exact ⟨[Action.pin_ensure_reservation (scu_group_of env pin) (scu_pin_of env pin)
      CLASS_NUMBER_SELF, Action.gpio_configure_pinmux pin (env.gpio_configure_pinmux
        (pin_ensure_reservation (scu_group_of env pin) (scu_pin_of env pin)
          CLASS_NUMBER_SELF w).2 pin)],
      by simp [pin_ensure_reservation, gpio_configure_pinmux, World.emit],
      by simp [Action.is_release]⟩

/-- Running the acquire loop over `pre ++ rest` is running it over `pre` and, when
that succeeds, over `rest`. -/
theorem initialize_taxi_loop_append (env : Env) (pre rest : List GpioPin) (w : World) :
    initialize_taxi_loop env (pre ++ rest) w =
      if (initialize_taxi_loop env pre w).1 ≠ 0 then initialize_taxi_loop env pre w
      else initialize_taxi_loop env rest (initialize_taxi_loop env pre w).2 := by
  induction pre generalizing w with
  | nil => simp [initialize_taxi_loop]
  | cons q pre ih =>
    simp only [List.cons_append, initialize_taxi_loop]
    by_cases hq : (set_up_taxi_gpio env q w).1 = 0
    · simp only [hq, ne_eq, not_true_eq_false, if_false]
      exact ih _
    · simp [hq]

theorem initialize_taxi_loop_taxi_initialized (env : Env) (pins : List GpioPin) (w : World) :
    (initialize_taxi_loop env pins w).2.taxi_initialized = w.taxi_initialized := by
  induction pins generalizing w with
  | nil => rfl
  | cons q pins ih =>
    simp only [initialize_taxi_loop]
    split_ifs
    · exact set_up_taxi_gpio_taxi_initialized env q w
    · rw [ih]
      simp [gpio_set_pin, gpio_set_pin_direction, set_up_taxi_gpio_taxi_initialized]

/-- The acquire loop never takes a pin away from its owner. -/
theorem initialize_taxi_loop_keeps (env : Env) (pins : List GpioPin) (w : World) (g p c : Nat)
    (h : w.reservation g p = some c) :
    (initialize_taxi_loop env pins w).2.reservation g p = some c := by
  induction pins generalizing w with
  | nil => exact h
  | cons q pins ih =>
    simp only [initialize_taxi_loop]
    split_ifs
    · exact set_up_taxi_gpio_keeps env q w g p c h
    · apply ih
      simpa [gpio_set_pin, gpio_set_pin_direction] using set_up_taxi_gpio_keeps env q w g p c h

/-- The acquire loop never turns an output into an input. -/
theorem initialize_taxi_loop_output (env : Env) (pins : List GpioPin) (w : World) (q : GpioPin)
    (h : w.direction q = true) : (initialize_taxi_loop env pins w).2.direction q = true := by
  induction pins generalizing w with
  | nil => exact h
  | cons r pins ih =>
    simp only [initialize_taxi_loop]
    split_ifs
    · rw [set_up_taxi_gpio_direction]
      exact h
    · apply ih
      simp [gpio_set_pin, gpio_set_pin_direction, set_up_taxi_gpio_direction, h]

/-- The acquire loop never drives a high pin low. -/
theorem initialize_taxi_loop_high (env : Env) (pins : List GpioPin) (w : World) (q : GpioPin)
    (h : w.level q = true) : (initialize_taxi_loop env pins w).2.level q = true := by
  induction pins generalizing w with
  | nil => exact h
  | cons r pins ih =>
    simp only [initialize_taxi_loop]
    split_ifs
    · rw [set_up_taxi_gpio_level]
      exact h
    · apply ih
      simp [gpio_set_pin, gpio_set_pin_direction, set_up_taxi_gpio_level, h]

/-- After a successful acquire loop every pin of the list is reserved for this
class, is an output and is driven high. -/
theorem initialize_taxi_loop_acquired (env : Env) (pins : List GpioPin) (w : World)
    (h : (initialize_taxi_loop env pins w).1 = 0) (q : GpioPin) (hq : q ∈ pins) :
    (initialize_taxi_loop env pins w).2.reservation (scu_group_of env q) (scu_pin_of env q)
        = some CLASS_NUMBER_SELF ∧
    (initialize_taxi_loop env pins w).2.direction q = true ∧
    (initialize_taxi_loop env pins w).2.level q = true := by
  induction pins generalizing w with
  | nil => cases hq
  | cons r pins ih =>
    simp only [initialize_taxi_loop] at h ⊢
    by_cases hr : (set_up_taxi_gpio env r w).1 = 0
    · simp only [hr, ne_eq, not_true_eq_false, if_false] at h ⊢
      rcases List.mem_cons.mp hq with rfl | hq'
      · refine ⟨?_, ?_, ?_⟩
        · apply initialize_taxi_loop_keeps
          simpa [gpio_set_pin, gpio_set_pin_direction] using set_up_taxi_gpio_reserved env q w hr
        · apply initialize_taxi_loop_output
          simp [gpio_set_pin, gpio_set_pin_direction]
        · apply initialize_taxi_loop_high
          simp [gpio_set_pin, gpio_set_pin_direction]
      · exact ih _ h hq'
    · simp [hr] at h

/-- The calls of the acquire loop are appended to the trace and release nothing. -/
theorem initialize_taxi_loop_no_release (env : Env) (pins : List GpioPin) (w : World) :
    ∃ d, (initialize_taxi_loop env pins w).2.trace = w.trace ++ d ∧
      ∀ a ∈ d, a.is_release = false := by
  induction pins generalizing w with
  | nil => exact ⟨[], by simp [initialize_taxi_loop], by simp⟩
  | cons r pins ih =>
    simp only [initialize_taxi_loop]
    obtain ⟨d1, hd1, hn1⟩ := set_up_taxi_gpio_no_release env r w
    split_ifs
    · exact ⟨d1, hd1, hn1⟩
    · obtain ⟨d2, hd2, hn2⟩ := ih (gpio_set_pin r (gpio_set_pin_direction r true
        (set_up_taxi_gpio env r w).2))
      refine ⟨d1 ++ [Action.gpio_set_pin_direction r true, Action.gpio_set_pin r] ++ d2, ?_, ?_⟩
      · rw [hd2]
        simp [gpio_set_pin, gpio_set_pin_direction, hd1]
      · intro a ha
        simp only [List.mem_append, List.mem_cons, List.mem_singleton, List.not_mem_nil,
          or_false] at ha
        rcases ha with (ha | ha | ha) | ha
        · exact hn1 a ha
        · subst ha; rfl
        · subst ha; rfl
        · exact hn2 a ha

/-! ## Failed acquire (`initialize_taxi`) -/

/-- C1 (as stated, refuted): with `u5_oe` held by another class, `initialize_taxi`
fails at the second pin with `EBUSY`, and `u4_oe` (P5_2), free before the call,
is still reserved for class `0x199` when the call returns: the trace of the call
ends with the refused request and contains no release. -/
theorem initialize_taxi_not_atomic :
    (initialize_taxi quiet_env u5_taken_world).1 = EBUSY ∧
    u5_taken_world.reservation 5 2 = none ∧
    (initialize_taxi quiet_env u5_taken_world).2.reservation 5 2 = some CLASS_NUMBER_SELF ∧
    (initialize_taxi quiet_env u5_taken_world).2.trace =
      [Action.pin_ensure_reservation 5 2 CLASS_NUMBER_SELF,
       Action.gpio_configure_pinmux u4_oe 0,
       Action.gpio_set_pin_direction u4_oe true,
       Action.gpio_set_pin u4_oe,
       Action.pin_ensure_reservation 6 4 CLASS_NUMBER_SELF] := by
  decide

/-- C1 (amended): when `initialize_taxi` fails at the k-th pin (the pins `pre`
before it were set up, `set_up_taxi_gpio` of the k-th returns non-zero), it
returns that code at once; every pin 1..k-1 is still reserved for class `0x199`,
is an output and is driven high; the call has released nothing; and
`taxi_initialized` is as it was. -/
theorem initialize_taxi_failure_keeps_pins (env : Env) (w : World)
    (pre post : List GpioPin) (pin : GpioPin)
    (hk : gpio_pins = pre ++ pin :: post)
    (hpre : (initialize_taxi_loop env pre w).1 = 0)
    (hfail : (set_up_taxi_gpio env pin (initialize_taxi_loop env pre w).2).1 ≠ 0) :
    initialize_taxi env w = set_up_taxi_gpio env pin (initialize_taxi_loop env pre w).2 ∧
    (∀ q ∈ pre,
      (initialize_taxi env w).2.reservation (scu_group_of env q) (scu_pin_of env q)
        = some CLASS_NUMBER_SELF ∧
      (initialize_taxi env w).2.direction q = true ∧
      (initialize_taxi env w).2.level q = true) ∧
    (∃ d, (initialize_taxi env w).2.trace = w.trace ++ d ∧ ∀ a ∈ d, a.is_release = false) ∧
    (initialize_taxi env w).2.taxi_initialized = w.taxi_initialized := by
  have hloop : initialize_taxi_loop env gpio_pins w
      = set_up_taxi_gpio env pin (initialize_taxi_loop env pre w).2 := by
    rw [hk, initialize_taxi_loop_append]
    simp only [hpre, ne_eq, not_true_eq_false, if_false, initialize_taxi_loop]
    simp [hfail]
  have hinit : initialize_taxi env w
      = set_up_taxi_gpio env pin (initialize_taxi_loop env pre w).2 := by
    simp only [initialize_taxi, hloop]
    simp [hfail]
  rw [hinit]
  refine ⟨rfl, ?_, ?_, ?_⟩
  · intro q hq
    obtain ⟨h1, h2, h3⟩ := initialize_taxi_loop_acquired env pre w hpre q hq
    refine ⟨set_up_taxi_gpio_keeps _ _ _ _ _ _ h1, ?_, ?_⟩
    · rw [set_up_taxi_gpio_direction]
      exact h2
    · rw [set_up_taxi_gpio_level]
      exact h3
  · obtain ⟨d1, hd1, hn1⟩ := initialize_taxi_loop_no_release env pre w
    obtain ⟨d2, hd2, hn2⟩ := set_up_taxi_gpio_no_release env pin (initialize_taxi_loop env pre w).2
    refine ⟨d1 ++ d2, ?_, ?_⟩
    · rw [hd2, hd1, List.append_assoc]
    · intro a ha
      rcases List.mem_append.mp ha with ha | ha
      · exact hn1 a ha
      · exact hn2 a ha
  · rw [set_up_taxi_gpio_taxi_initialized, initialize_taxi_loop_taxi_initialized]

/-- The amended C1 at work: failure at the second pin in `u5_taken_world`. -/
theorem initialize_taxi_failure_keeps_pins_witness :
    gpio_pins = [u4_oe] ++ u5_oe :: [trigger] ∧
    (initialize_taxi_loop quiet_env [u4_oe] u5_taken_world).1 = 0 ∧
    (set_up_taxi_gpio quiet_env u5_oe
      (initialize_taxi_loop quiet_env [u4_oe] u5_taken_world).2).1 ≠ 0 ∧
    (initialize_taxi quiet_env u5_taken_world
        = set_up_taxi_gpio quiet_env u5_oe
            (initialize_taxi_loop quiet_env [u4_oe] u5_taken_world).2 ∧
      (∀ q ∈ [u4_oe],
        (initialize_taxi quiet_env u5_taken_world).2.reservation
            (scu_group_of quiet_env q) (scu_pin_of quiet_env q) = some CLASS_NUMBER_SELF ∧
        (initialize_taxi quiet_env u5_taken_world).2.direction q = true ∧
        (initialize_taxi quiet_env u5_taken_world).2.level q = true) ∧
      (∃ d, (initialize_taxi quiet_env u5_taken_world).2.trace = u5_taken_world.trace ++ d ∧
        ∀ a ∈ d, a.is_release = false) ∧
      (initialize_taxi quiet_env u5_taken_world).2.taxi_initialized
        = u5_taken_world.taxi_initialized) :=
  ⟨by decide, by decide, by decide,
    initialize_taxi_failure_keeps_pins quiet_env u5_taken_world [u4_oe] [trigger] u5_oe
      (by decide) (by decide) (by decide)⟩

/-! ## Exclusivity -/

/-- A pin held by another class is refused by `pin_ensure_reservation`. -/
theorem pin_ensure_reservation_refused (w : World) (g p c : Nat)
    (hown : w.reservation g p = some c) (hc : c ≠ CLASS_NUMBER_SELF) :
    (pin_ensure_reservation g p CLASS_NUMBER_SELF w).1 = false := by
  simp only [pin_ensure_reservation]
  exact (Registry.ensure_refused_iff _ _ _ _).mpr ⟨c, hown, hc⟩

/-- On a valid pin held by another class `set_up_taxi_gpio` stops at the
reservation request. -/
theorem set_up_taxi_gpio_busy (env : Env) (P : GpioPin) (w : World) (c : Nat)
    (hvalid : ¬ (scu_group_of env P = 0xff ∨ scu_pin_of env P = 0xff))
    (hown : w.reservation (scu_group_of env P) (scu_pin_of env P) = some c)
    (hc : c ≠ CLASS_NUMBER_SELF) :
    set_up_taxi_gpio env P w =
      (EBUSY, (pin_ensure_reservation (scu_group_of env P) (scu_pin_of env P)
        CLASS_NUMBER_SELF w).2) := by
  rw [set_up_taxi_gpio_eq, if_neg hvalid, if_pos (pin_ensure_reservation_refused w _ _ c hown hc)]

/-- Setting up one pin writes no other pin. -/
theorem set_up_taxi_gpio_writes_other (env : Env) (r P : GpioPin) (w : World) (hr : r ≠ P) :
    ∃ d, (set_up_taxi_gpio env r w).2.trace = w.trace ++ d ∧
      ∀ a ∈ d, a.writes_gpio P = false := by
  rw [set_up_taxi_gpio_eq]
  split_ifs
  · exact ⟨[], by simp, by simp⟩
  · exact ⟨[Action.pin_ensure_reservation (scu_group_of env r) (scu_pin_of env r)
      CLASS_NUMBER_SELF], by simp [pin_ensure_reservation], by simp [Action.writes_gpio]⟩
  · exact ⟨[Action.pin_ensure_reservation (scu_group_of env r) (scu_pin_of env r)
      CLASS_NUMBER_SELF, Action.gpio_configure_pinmux r (env.gpio_configure_pinmux
        (pin_ensure_reservation (scu_group_of env r) (scu_pin_of env r)
          CLASS_NUMBER_SELF w).2 r)],
      by simp [pin_ensure_reservation, gpio_configure_pinmux, World.emit],
      by simp [Action.writes_gpio, hr]⟩

/-- The acquire loop leaves a pin held by another class alone, and fails when that
pin is one of those to acquire. -/
theorem initialize_taxi_loop_busy (env : Env) (pins : List GpioPin) (P : GpioPin) (c : Nat)
    (hvalid : ¬ (scu_group_of env P = 0xff ∨ scu_pin_of env P = 0xff))
    (hc : c ≠ CLASS_NUMBER_SELF) (w : World)
    (hown : w.reservation (scu_group_of env P) (scu_pin_of env P) = some c) :
    (∃ d, (initialize_taxi_loop env pins w).2.trace = w.trace ++ d ∧
      ∀ a ∈ d, a.writes_gpio P = false) ∧
    (initialize_taxi_loop env pins w).2.direction P = w.direction P ∧
    (initialize_taxi_loop env pins w).2.level P = w.level P ∧
    (P ∈ pins → (initialize_taxi_loop env pins w).1 ≠ 0) := by
  induction pins generalizing w with
  | nil => exact ⟨⟨[], by simp [initialize_taxi_loop], by simp⟩, rfl, rfl, by simp⟩
  | cons r pins ih =>
    by_cases hrP : r = P
    · subst hrP
      have hbusy := set_up_taxi_gpio_busy env r w c hvalid hown hc
      simp only [initialize_taxi_loop, hbusy]
      refine ⟨⟨[Action.pin_ensure_reservation (scu_group_of env r) (scu_pin_of env r)
        CLASS_NUMBER_SELF], by simp [EBUSY, pin_ensure_reservation],
        by simp [Action.writes_gpio]⟩, ?_, ?_, ?_⟩
      · simp [EBUSY, pin_ensure_reservation]
      · simp [EBUSY, pin_ensure_reservation]
      · simp [EBUSY]
    · obtain ⟨d1, hd1, hn1⟩ := set_up_taxi_gpio_writes_other env r P w hrP
      simp only [initialize_taxi_loop]
      split_ifs with hfail
      · refine ⟨⟨d1, hd1, hn1⟩, ?_, ?_, ?_⟩
        · rw [set_up_taxi_gpio_direction]
        · rw [set_up_taxi_gpio_level]
        · intro _
          exact hfail
      · have hPr : ¬ P = r := fun h => hrP h.symm
        have hown' : (gpio_set_pin r (gpio_set_pin_direction r true
            (set_up_taxi_gpio env r w).2)).reservation (scu_group_of env P) (scu_pin_of env P)
              = some c := by
          simpa [gpio_set_pin, gpio_set_pin_direction] using
            set_up_taxi_gpio_keeps env r w _ _ c hown
        obtain ⟨⟨d2, hd2, hn2⟩, hdir, hlev, hmem⟩ := ih _ hown'
        refine ⟨⟨d1 ++ [Action.gpio_set_pin_direction r true, Action.gpio_set_pin r] ++ d2,
          ?_, ?_⟩, ?_, ?_, ?_⟩
        · rw [hd2]
          simp [gpio_set_pin, gpio_set_pin_direction, hd1]
        · intro a ha
          simp only [List.mem_append, List.mem_cons, List.mem_singleton, List.not_mem_nil,
            or_false] at ha
          rcases ha with (ha | ha | ha) | ha
          · exact hn1 a ha
          · subst ha; simp [Action.writes_gpio, hrP]
          · subst ha; simp [Action.writes_gpio, hrP]
          · exact hn2 a ha
        · rw [hdir]
          simp [gpio_set_pin, gpio_set_pin_direction, set_up_taxi_gpio_direction, hPr]
        · rw [hlev]
          simp [gpio_set_pin, gpio_set_pin_direction, set_up_taxi_gpio_level, hPr]
        · intro hmemP
          rcases List.mem_cons.mp hmemP with h | h
          · exact absurd h hPr
          · exact hmem h

/-- C2: a control pin `P` with a valid SCU mapping that is reserved by a class
other than `0x199` is refused: `pin_ensure_reservation` answers false,
`set_up_taxi_gpio P` returns `EBUSY` after the reservation request alone, and the
enclosing `initialize_taxi` fails without any `gpio_configure_pinmux`,
`gpio_set_pin_direction` or `gpio_set_pin` on `P`; direction and level of `P` are
unchanged by both. -/
theorem busy_pin_is_left_alone (env : Env) (w : World) (P : GpioPin) (c : Nat)
    (hP : P ∈ gpio_pins)
    (hvalid : ¬ (scu_group_of env P = 0xff ∨ scu_pin_of env P = 0xff))
    (hown : w.reservation (scu_group_of env P) (scu_pin_of env P) = some c)
    (hc : c ≠ CLASS_NUMBER_SELF) :
    (pin_ensure_reservation (scu_group_of env P) (scu_pin_of env P) CLASS_NUMBER_SELF w).1 = false ∧
    (set_up_taxi_gpio env P w).1 = EBUSY ∧
    (set_up_taxi_gpio env P w).2.trace = w.trace ++
      [Action.pin_ensure_reservation (scu_group_of env P) (scu_pin_of env P) CLASS_NUMBER_SELF] ∧
    (set_up_taxi_gpio env P w).2.direction P = w.direction P ∧
    (set_up_taxi_gpio env P w).2.level P = w.level P ∧
    (initialize_taxi env w).1 ≠ 0 ∧
    (∃ d, (initialize_taxi env w).2.trace = w.trace ++ d ∧ ∀ a ∈ d, a.writes_gpio P = false) ∧
    (initialize_taxi env w).2.direction P = w.direction P ∧
    (initialize_taxi env w).2.level P = w.level P := by
  have hbusy := set_up_taxi_gpio_busy env P w c hvalid hown hc
  obtain ⟨htr, hdir, hlev, hfail⟩ := initialize_taxi_loop_busy env gpio_pins P c hvalid hc w hown
  have hne := hfail hP
  have hinit : initialize_taxi env w = initialize_taxi_loop env gpio_pins w := by
    simp only [initialize_taxi]
    simp [hne]
  refine ⟨pin_ensure_reservation_refused w _ _ c hown hc, ?_, ?_, ?_, ?_, ?_, ?_, ?_, ?_⟩
  · rw [hbusy]
  · rw [hbusy]
    simp [pin_ensure_reservation]
  · rw [set_up_taxi_gpio_direction]
  · rw [set_up_taxi_gpio_level]
  · rw [hinit]
    exact hne
  · rw [hinit]
    exact htr
  · rw [hinit]
    exact hdir
  · rw [hinit]
    exact hlev

/-- C2 at work: `u5_oe` held by class `0x10A`. -/
theorem busy_pin_is_left_alone_witness :
    u5_oe ∈ gpio_pins ∧
    ¬ (scu_group_of quiet_env u5_oe = 0xff ∨ scu_pin_of quiet_env u5_oe = 0xff) ∧
    u5_taken_world.reservation (scu_group_of quiet_env u5_oe) (scu_pin_of quiet_env u5_oe)
      = some 0x10A ∧
    (0x10A : Nat) ≠ CLASS_NUMBER_SELF ∧
    (set_up_taxi_gpio quiet_env u5_oe u5_taken_world).1 = EBUSY ∧
    (initialize_taxi quiet_env u5_taken_world).2.direction u5_oe
      = u5_taken_world.direction u5_oe :=
  ⟨by decide, by decide, by decide, by decide,
    (busy_pin_is_left_alone quiet_env u5_taken_world u5_oe 0x10A
      (by decide) (by decide) (by decide) (by decide)).2.1,
    (busy_pin_is_left_alone quiet_env u5_taken_world u5_oe 0x10A
      (by decide) (by decide) (by decide) (by decide)).2.2.2.2.2.2.2.1⟩

/-! ## Traces of the acquire loop -/

/-- The calls of a successful `set_up_taxi_gpio`: the request and the mux call. -/
theorem set_up_taxi_gpio_trace_ok (env : Env) (pin : GpioPin) (w : World)
    (h : (set_up_taxi_gpio env pin w).1 = 0) :
    (set_up_taxi_gpio env pin w).2.trace = w.trace ++
      [Action.pin_ensure_reservation (scu_group_of env pin) (scu_pin_of env pin) CLASS_NUMBER_SELF,
       Action.gpio_configure_pinmux pin 0] := by
  rw [set_up_taxi_gpio_eq] at h ⊢
  split_ifs at h ⊢
  · simp [EINVAL] at h
  · simp [EBUSY] at h
  · simp only [gpio_configure_pinmux] at h
    simp [pin_ensure_reservation, gpio_configure_pinmux, World.emit] at h ⊢
    exact h

/-- The calls of `set_up_taxi_gpio` all belong to the acquisition. -/
theorem set_up_taxi_gpio_acquire_only (env : Env) (pin : GpioPin) (w : World) :
    ∃ d, (set_up_taxi_gpio env pin w).2.trace = w.trace ++ d ∧ ∀ a ∈ d, a.is_acquire = true := by
  rw [set_up_taxi_gpio_eq]
  split_ifs
  · exact ⟨[], by simp, by simp⟩
  · exact ⟨[Action.pin_ensure_reservation (scu_group_of env pin) (scu_pin_of env pin)
      CLASS_NUMBER_SELF], by simp [pin_ensure_reservation], by simp [Action.is_acquire]⟩
  · exact ⟨[Action.pin_ensure_reservation (scu_group_of env pin) (scu_pin_of env pin)
      CLASS_NUMBER_SELF, Action.gpio_configure_pinmux pin (env.gpio_configure_pinmux
        (pin_ensure_reservation (scu_group_of env pin) (scu_pin_of env pin)
          CLASS_NUMBER_SELF w).2 pin)],
      by simp [pin_ensure_reservation, gpio_configure_pinmux, World.emit],
      by simp [Action.is_acquire]⟩

/-- The calls of the acquire loop all belong to the acquisition. -/
theorem initialize_taxi_loop_acquire_only (env : Env) (pins : List GpioPin) (w : World) :
    ∃ d, (initialize_taxi_loop env pins w).2.trace = w.trace ++ d ∧
      ∀ a ∈ d, a.is_acquire = true := by
  induction pins generalizing w with
  | nil => exact ⟨[], by simp [initialize_taxi_loop], by simp⟩
  | cons r pins ih =>
    simp only [initialize_taxi_loop]
    obtain ⟨d1, hd1, hn1⟩ := set_up_taxi_gpio_acquire_only env r w
    split_ifs
    · exact ⟨d1, hd1, hn1⟩
    · obtain ⟨d2, hd2, hn2⟩ := ih (gpio_set_pin r (gpio_set_pin_direction r true
        (set_up_taxi_gpio env r w).2))
      refine ⟨d1 ++ [Action.gpio_set_pin_direction r true, Action.gpio_set_pin r] ++ d2, ?_, ?_⟩
      · rw [hd2]
        simp [gpio_set_pin, gpio_set_pin_direction, hd1]
      · intro a ha
        simp only [List.mem_append, List.mem_cons, List.mem_singleton, List.not_mem_nil,
          or_false] at ha
        rcases ha with (ha | ha | ha) | ha
        · exact hn1 a ha
        · subst ha; rfl
        · subst ha; rfl
        · exact hn2 a ha

/-- The calls of a successful acquire loop, exactly. -/
theorem initialize_taxi_loop_trace_ok (env : Env) (pins : List GpioPin) (w : World)
    (h : (initialize_taxi_loop env pins w).1 = 0) :
    (initialize_taxi_loop env pins w).2.trace = w.trace ++ acquire_trace env pins := by
  induction pins generalizing w with
  | nil => simp [initialize_taxi_loop, acquire_trace]
  | cons r pins ih =>
    simp only [initialize_taxi_loop] at h ⊢
    by_cases hr : (set_up_taxi_gpio env r w).1 = 0
    · simp only [hr, ne_eq, not_true_eq_false, if_false] at h ⊢
      rw [ih _ h]
      simp [gpio_set_pin, gpio_set_pin_direction, set_up_taxi_gpio_trace_ok env r w hr,
        acquire_trace, acquire_calls]
    · simp [hr] at h

/-- `initialize_taxi` succeeds exactly when its loop does, and then sets the flag. -/
theorem initialize_taxi_ok (env : Env) (w : World) (h : (initialize_taxi env w).1 = 0) :
    (initialize_taxi_loop env gpio_pins w).1 = 0 ∧
    initialize_taxi env w =
      (0, { (initialize_taxi_loop env gpio_pins w).2 with taxi_initialized := true }) := by
  by_cases hl : (initialize_taxi_loop env gpio_pins w).1 = 0
  · refine ⟨hl, ?_⟩
    simp [initialize_taxi, hl]
  · simp [initialize_taxi, hl] at h

/-- A failed `initialize_taxi` is its failed loop. -/
theorem initialize_taxi_fail (env : Env) (w : World) (h : (initialize_taxi env w).1 ≠ 0) :
    initialize_taxi env w = initialize_taxi_loop env gpio_pins w := by
  by_cases hl : (initialize_taxi_loop env gpio_pins w).1 = 0
  · simp [initialize_taxi, hl] at h
  · simp [initialize_taxi, hl]

theorem set_up_taxi_gpio_rest (env : Env) (pin : GpioPin) (w : World) :
    (set_up_taxi_gpio env pin w).2.streaming = w.streaming ∧
    (set_up_taxi_gpio env pin w).2.sgpio_running = w.sgpio_running ∧
    (set_up_taxi_gpio env pin w).2.ticks = w.ticks := by
  rw [set_up_taxi_gpio_eq]
  split_ifs <;> simp [pin_ensure_reservation, gpio_configure_pinmux, World.emit]

/-- The acquire loop touches neither the transport, the capture engine nor the
hardware read counter. -/
theorem initialize_taxi_loop_rest (env : Env) (pins : List GpioPin) (w : World) :
    (initialize_taxi_loop env pins w).2.streaming = w.streaming ∧
    (initialize_taxi_loop env pins w).2.sgpio_running = w.sgpio_running ∧
    (initialize_taxi_loop env pins w).2.ticks = w.ticks := by
  induction pins generalizing w with
  | nil => exact ⟨rfl, rfl, rfl⟩
  | cons r pins ih =>
    simp only [initialize_taxi_loop]
    obtain ⟨h1, h2, h3⟩ := set_up_taxi_gpio_rest env r w
    split_ifs
    · exact ⟨h1, h2, h3⟩
    · obtain ⟨k1, k2, k3⟩ := ih (gpio_set_pin r (gpio_set_pin_direction r true
        (set_up_taxi_gpio env r w).2))
      rw [k1, k2, k3]
      simp [gpio_set_pin, gpio_set_pin_direction, h1, h2, h3]

/-- A completed `frame_sync_wait` only consumes hardware reads and leaves its mark
in the trace. -/
theorem frame_sync_wait_some (env : Env) (fuel : Nat) (w w1 : World)
    (h : frame_sync_wait env fuel w = some w1) :
    ∃ r, frame_sync_run env fuel w.ticks = some r ∧
      w1 = { w with ticks := r.exit_tick + 1, trace := w.trace ++ [Action.frame_sync_wait] } := by
  unfold frame_sync_wait at h
  cases hr : frame_sync_run env fuel w.ticks with
  | none => simp [hr] at h
  | some r =>
    refine ⟨r, rfl, ?_⟩
    simp [hr] at h
    exact h.symm

theorem sgpio_set_up_functions_trace (env : Env) (w : World) :
    (sgpio_set_up_functions env w).2.trace =
      w.trace ++ [Action.sgpio_set_up_functions (sgpio_set_up_functions env w).1] := rfl

/-- Every call of a successful acquisition belongs to the acquisition. -/
theorem acquire_trace_is_acquire (env : Env) (pins : List GpioPin) :
    ∀ a ∈ acquire_trace env pins, a.is_acquire = true := by
  induction pins with
  | nil => simp [acquire_trace]
  | cons q pins ih =>
    intro a ha
    simp only [acquire_trace, acquire_calls, List.mem_append, List.mem_cons, List.mem_singleton,
      List.not_mem_nil, or_false] at ha
    rcases ha with (ha | ha | ha | ha) | ha
    · subst ha; rfl
    · subst ha; rfl
    · subst ha; rfl
    · subst ha; rfl
    · exact ih a ha

/-- The world in which `verb_start_receive` returns the code of a failed
`sgpio_set_up_functions`. -/
theorem verb_start_receive_config_failure (env : Env) (fuel : Nat) (w : World)
    (hinit : (initialize_taxi env w).1 = 0)
    (hrc : (sgpio_set_up_functions env
      (platform_scu_configure_pin_fast_io taxi_dstrb_pin.scu_group taxi_dstrb_pin.scu_pin 7
        taxi_dstrb_pin.pull_resistors (initialize_taxi env w).2)).1 ≠ 0) :
    ∃ w', verb_start_receive env fuel w = some ((sgpio_set_up_functions env
        (platform_scu_configure_pin_fast_io taxi_dstrb_pin.scu_group taxi_dstrb_pin.scu_pin 7
          taxi_dstrb_pin.pull_resistors (initialize_taxi env w).2)).1, w') ∧
      (∀ q ∈ gpio_pins,
        w'.reservation (scu_group_of env q) (scu_pin_of env q) = some CLASS_NUMBER_SELF) ∧
      w'.taxi_initialized = true ∧
      w'.trace = w.trace ++ acquire_trace env gpio_pins ++
        [Action.platform_scu_configure_pin_fast_io taxi_dstrb_pin.scu_group
           taxi_dstrb_pin.scu_pin 7 taxi_dstrb_pin.pull_resistors,
         Action.sgpio_set_up_functions ((sgpio_set_up_functions env
           (platform_scu_configure_pin_fast_io taxi_dstrb_pin.scu_group taxi_dstrb_pin.scu_pin 7
             taxi_dstrb_pin.pull_resistors (initialize_taxi env w).2)).1)] ∧
      w'.streaming = w.streaming ∧
      w'.sgpio_running = w.sgpio_running ∧
      w'.ticks = w.ticks := by
  obtain ⟨hloop, heq⟩ := initialize_taxi_ok env w hinit
  refine ⟨(sgpio_set_up_functions env
      (platform_scu_configure_pin_fast_io taxi_dstrb_pin.scu_group taxi_dstrb_pin.scu_pin 7
        taxi_dstrb_pin.pull_resistors (initialize_taxi env w).2)).2, ?_, ?_, ?_, ?_, ?_, ?_, ?_⟩
  · simp only [verb_start_receive]
    rw [if_neg (by simpa using hinit), if_pos hrc]
  · intro q hq
    rw [heq]
    simpa [sgpio_set_up_functions, platform_scu_configure_pin_fast_io, World.emit] using
      (initialize_taxi_loop_acquired env gpio_pins w hloop q hq).1
  · rw [heq]
    simp [sgpio_set_up_functions, platform_scu_configure_pin_fast_io, World.emit]
  · rw [heq]
    simp [sgpio_set_up_functions, platform_scu_configure_pin_fast_io, World.emit,
      initialize_taxi_loop_trace_ok env gpio_pins w hloop]
  · rw [heq]
    simpa [sgpio_set_up_functions, platform_scu_configure_pin_fast_io, World.emit] using
      (initialize_taxi_loop_rest env gpio_pins w).1
  · rw [heq]
    simpa [sgpio_set_up_functions, platform_scu_configure_pin_fast_io, World.emit] using
      (initialize_taxi_loop_rest env gpio_pins w).2.1
  · rw [heq]
    simpa [sgpio_set_up_functions, platform_scu_configure_pin_fast_io, World.emit] using
      (initialize_taxi_loop_rest env gpio_pins w).2.2

/-! ## The configuring-failure path of `verb_start_receive` -/

/-- C9: when `initialize_taxi` succeeds and `sgpio_set_up_functions` returns
`rc ≠ 0`, `verb_start_receive` returns exactly `rc` (whatever the fuel); the three
control pins are still reserved for class `0x199` and `taxi_initialized` is true;
the calls made are the acquisition, the strobe pin configuration and the failed
`sgpio_set_up_functions`, so the transport is not started, `frame_sync_wait` is
not run (no hardware read is consumed) and the capture engine is not armed. -/
theorem configuring_failure_keeps_pins (env : Env) (fuel : Nat) (w : World)
    (hinit : (initialize_taxi env w).1 = 0)
    (hrc : (sgpio_set_up_functions env
      (platform_scu_configure_pin_fast_io taxi_dstrb_pin.scu_group taxi_dstrb_pin.scu_pin 7
        taxi_dstrb_pin.pull_resistors (initialize_taxi env w).2)).1 ≠ 0) :
    ∃ w', verb_start_receive env fuel w = some ((sgpio_set_up_functions env
        (platform_scu_configure_pin_fast_io taxi_dstrb_pin.scu_group taxi_dstrb_pin.scu_pin 7
          taxi_dstrb_pin.pull_resistors (initialize_taxi env w).2)).1, w') ∧
      (∀ q ∈ gpio_pins,
        w'.reservation (scu_group_of env q) (scu_pin_of env q) = some CLASS_NUMBER_SELF) ∧
      w'.taxi_initialized = true ∧
      w'.trace = w.trace ++ acquire_trace env gpio_pins ++
        [Action.platform_scu_configure_pin_fast_io taxi_dstrb_pin.scu_group
           taxi_dstrb_pin.scu_pin 7 taxi_dstrb_pin.pull_resistors,
         Action.sgpio_set_up_functions ((sgpio_set_up_functions env
           (platform_scu_configure_pin_fast_io taxi_dstrb_pin.scu_group taxi_dstrb_pin.scu_pin 7
             taxi_dstrb_pin.pull_resistors (initialize_taxi env w).2)).1)] ∧
      w'.streaming = w.streaming ∧
      w'.sgpio_running = w.sgpio_running ∧
      w'.ticks = w.ticks := by
  exact verb_start_receive_config_failure env fuel w hinit hrc

/-- C9 at work: `sgpio_set_up_functions` failing with code 7 after reset. -/
theorem configuring_failure_keeps_pins_witness :
    (initialize_taxi config_fail_env idle_world).1 = 0 ∧
    (sgpio_set_up_functions config_fail_env
      (platform_scu_configure_pin_fast_io taxi_dstrb_pin.scu_group taxi_dstrb_pin.scu_pin 7
        taxi_dstrb_pin.pull_resistors (initialize_taxi config_fail_env idle_world).2)).1 = 7 ∧
    ∃ w', verb_start_receive config_fail_env 0 idle_world = some (7, w') ∧
      (∀ q ∈ gpio_pins, w'.reservation (scu_group_of config_fail_env q)
        (scu_pin_of config_fail_env q) = some CLASS_NUMBER_SELF) ∧
      w'.taxi_initialized = true := by
  obtain ⟨w', h1, h2, h3, _⟩ := configuring_failure_keeps_pins config_fail_env 0 idle_world
    (by decide) (by decide)
  exact ⟨by decide, by decide, w', h1, h2, h3⟩

/-! ## Start sequencing -/

/-- C8: on every run of `verb_start_receive` that returns 0 the driver calls made
are exactly these, in this order: the acquisition of the three control pins (each
reserved, muxed, made an output, driven high), the configuration of the strobe
pin, `sgpio_set_up_functions`, the start of the transport, two completed
`frame_sync_wait` runs, and `sgpio_run` last; at that point the three pins are
reserved for class `0x199`, outputs and high, the transport is draining and the
engine is armed.  On every non-zero return neither `sgpio_run` nor
`frame_sync_wait` nor the start of the transport was performed. -/
theorem start_sequencing (env : Env) (fuel : Nat) (w : World) (r : Int × World)
    (h : verb_start_receive env fuel w = some r) :
    (r.1 = 0 →
      r.2.trace = w.trace ++ acquire_trace env gpio_pins ++ arm_calls ∧
      (∀ q ∈ gpio_pins,
        r.2.reservation (scu_group_of env q) (scu_pin_of env q) = some CLASS_NUMBER_SELF ∧
        r.2.direction q = true ∧ r.2.level q = true) ∧
      r.2.taxi_initialized = true ∧ r.2.streaming = true ∧ r.2.sgpio_running = true) ∧
    (r.1 ≠ 0 →
      ∃ d, r.2.trace = w.trace ++ d ∧ Action.sgpio_run ∉ d ∧ Action.frame_sync_wait ∉ d ∧
        Action.usb_streaming_start_streaming_to_host ∉ d) := by
  by_cases hinit : (initialize_taxi env w).1 = 0
  · obtain ⟨hloop, heq⟩ := initialize_taxi_ok env w hinit
    have htr := initialize_taxi_loop_trace_ok env gpio_pins w hloop
    by_cases hs : (sgpio_set_up_functions env
        (platform_scu_configure_pin_fast_io taxi_dstrb_pin.scu_group taxi_dstrb_pin.scu_pin 7
          taxi_dstrb_pin.pull_resistors (initialize_taxi env w).2)).1 = 0
    · simp only [verb_start_receive] at h
      rw [if_neg (by simpa using hinit), if_neg (by simpa using hs)] at h
      cases h1 : frame_sync_wait env fuel (usb_streaming_start_streaming_to_host
          (sgpio_set_up_functions env
            (platform_scu_configure_pin_fast_io taxi_dstrb_pin.scu_group taxi_dstrb_pin.scu_pin 7
              taxi_dstrb_pin.pull_resistors (initialize_taxi env w).2)).2) with
      | none => simp [h1] at h
      | some w1 =>
        cases h2 : frame_sync_wait env fuel w1 with
        | none => simp [h1, h2] at h
        | some w2 =>
          simp [h1, h2] at h
          obtain ⟨r1, _, e1⟩ := frame_sync_wait_some env fuel _ w1 h1
          obtain ⟨r2, _, e2⟩ := frame_sync_wait_some env fuel _ w2 h2
          subst h
          refine ⟨fun _ => ⟨?_, ?_, ?_, ?_, ?_⟩, fun hne => absurd rfl hne⟩
          · rw [e2, e1]
            simp only [sgpio_run, usb_streaming_start_streaming_to_host]
            rw [sgpio_set_up_functions_trace, hs]
            simp [platform_scu_configure_pin_fast_io, World.emit, heq, htr, arm_calls]
          · intro q hq
            obtain ⟨a1, a2, a3⟩ := initialize_taxi_loop_acquired env gpio_pins w hloop q hq
            rw [e2, e1]
            simp [sgpio_run, usb_streaming_start_streaming_to_host, sgpio_set_up_functions,
              platform_scu_configure_pin_fast_io, World.emit, heq, a1, a2, a3]
          · rw [e2, e1]
            simp [sgpio_run, usb_streaming_start_streaming_to_host, sgpio_set_up_functions,
              platform_scu_configure_pin_fast_io, World.emit, heq]
          · rw [e2, e1]
            simp [sgpio_run, usb_streaming_start_streaming_to_host, sgpio_set_up_functions,
              platform_scu_configure_pin_fast_io, World.emit, heq]
          · rw [e2, e1]
            simp [sgpio_run, usb_streaming_start_streaming_to_host, sgpio_set_up_functions,
              platform_scu_configure_pin_fast_io, World.emit, heq]
    · obtain ⟨w', hw', _, _, htrace, _⟩ := verb_start_receive_config_failure env fuel w hinit hs
      rw [hw'] at h
      cases h
      refine ⟨fun h0 => absurd h0 hs, fun _ => ⟨acquire_trace env gpio_pins ++
        [Action.platform_scu_configure_pin_fast_io taxi_dstrb_pin.scu_group
           taxi_dstrb_pin.scu_pin 7 taxi_dstrb_pin.pull_resistors,
         Action.sgpio_set_up_functions ((sgpio_set_up_functions env
           (platform_scu_configure_pin_fast_io taxi_dstrb_pin.scu_group taxi_dstrb_pin.scu_pin 7
             taxi_dstrb_pin.pull_resistors (initialize_taxi env w).2)).1)], ?_, ?_, ?_, ?_⟩⟩
      · rw [htrace, List.append_assoc]
      · have hacq := acquire_trace_is_acquire env gpio_pins
        intro hmem
        rcases List.mem_append.mp hmem with hm | hm
        · exact absurd (hacq _ hm) (by decide)
        · simp at hm
      · have hacq := acquire_trace_is_acquire env gpio_pins
        intro hmem
        rcases List.mem_append.mp hmem with hm | hm
        · exact absurd (hacq _ hm) (by decide)
        · simp at hm
      · have hacq := acquire_trace_is_acquire env gpio_pins
        intro hmem
        rcases List.mem_append.mp hmem with hm | hm
        · exact absurd (hacq _ hm) (by decide)
        · simp at hm
  · simp only [verb_start_receive] at h
    rw [if_pos hinit] at h
    cases h
    obtain ⟨d, hd, hn⟩ := initialize_taxi_loop_acquire_only env gpio_pins w
    rw [initialize_taxi_fail env w hinit]
    refine ⟨fun h0 => ?_, fun _ => ⟨d, hd, ?_, ?_, ?_⟩⟩
    · rw [initialize_taxi_fail env w hinit] at hinit
      exact absurd h0 hinit
    · intro hmem
      exact absurd (hn _ hmem) (by decide)
    · intro hmem
      exact absurd (hn _ hmem) (by decide)
    · intro hmem
      exact absurd (hn _ hmem) (by decide)

/-- C8 at work: a start after reset with every driver succeeding and a quiet strobe. -/
theorem start_sequencing_witness :
    ∃ r, verb_start_receive quiet_env 2 idle_world = some r ∧ r.1 = 0 ∧
      r.2.trace = idle_world.trace ++ acquire_trace quiet_env gpio_pins ++ arm_calls :=
  ⟨(verb_start_receive quiet_env 2 idle_world).get (by decide),
    (Option.some_get _).symm,
    by decide,
    ((start_sequencing quiet_env 2 idle_world _ (Option.some_get _).symm).1 (by decide)).1⟩

/-! ## Release (`terminate_taxi`) -/

/-- Running the release loop over `pre ++ rest` is running it over `pre` and, when
that succeeds, over `rest`. -/
theorem terminate_taxi_loop_append (env : Env) (pre rest : List GpioPin) (w : World) :
    terminate_taxi_loop env (pre ++ rest) w =
      if (terminate_taxi_loop env pre w).1 ≠ 0 then terminate_taxi_loop env pre w
      else terminate_taxi_loop env rest (terminate_taxi_loop env pre w).2 := by
  induction pre generalizing w with
  | nil => simp [terminate_taxi_loop]
  | cons q pre ih =>
    simp only [List.cons_append, terminate_taxi_loop]
    by_cases hq : (tear_down_taxi_gpio env q w).1 = 0
    · simp only [hq, ne_eq, not_true_eq_false, if_false]
      exact ih _
    · simp [hq]

/-- `tear_down_taxi_gpio` changes the direction of its own pin at most, never the
level of a pin, the flag, the transport or the engine. -/
theorem tear_down_taxi_gpio_frame (env : Env) (pin : GpioPin) (w : World) :
    (∀ q, q ≠ pin → (tear_down_taxi_gpio env pin w).2.direction q = w.direction q) ∧
    (tear_down_taxi_gpio env pin w).2.level = w.level ∧
    (tear_down_taxi_gpio env pin w).2.taxi_initialized = w.taxi_initialized ∧
    (tear_down_taxi_gpio env pin w).2.streaming = w.streaming ∧
    (tear_down_taxi_gpio env pin w).2.sgpio_running = w.sgpio_running ∧
    (tear_down_taxi_gpio env pin w).2.ticks = w.ticks := by
  unfold tear_down_taxi_gpio
  split_ifs
  · simp
  · refine ⟨?_, rfl, rfl, rfl, rfl, rfl⟩
    intro q hq
    simp [pin_release_reservation, gpio_set_pin_direction, hq]

/-- The release loop changes the direction of the pins of its list at most. -/
theorem terminate_taxi_loop_frame (env : Env) (pins : List GpioPin) (w : World) :
    (∀ q, q ∉ pins → (terminate_taxi_loop env pins w).2.direction q = w.direction q) ∧
    (terminate_taxi_loop env pins w).2.level = w.level ∧
    (terminate_taxi_loop env pins w).2.taxi_initialized = w.taxi_initialized ∧
    (terminate_taxi_loop env pins w).2.streaming = w.streaming ∧
    (terminate_taxi_loop env pins w).2.sgpio_running = w.sgpio_running ∧
    (terminate_taxi_loop env pins w).2.ticks = w.ticks := by
  induction pins generalizing w with
  | nil => exact ⟨fun _ _ => rfl, rfl, rfl, rfl, rfl, rfl⟩
  | cons r pins ih =>
    obtain ⟨h1, h2, h3, h4, h5, h6⟩ := tear_down_taxi_gpio_frame env r w
    simp only [terminate_taxi_loop]
    split_ifs
    · refine ⟨?_, h2, h3, h4, h5, h6⟩
      intro q hq
      exact h1 q (fun h => hq (h ▸ List.mem_cons_self _ _))
    · obtain ⟨k1, k2, k3, k4, k5, k6⟩ := ih (tear_down_taxi_gpio env r w).2
      refine ⟨?_, k2.trans h2, k3.trans h3, k4.trans h4, k5.trans h5, k6.trans h6⟩
      intro q hq
      rw [k1 q (fun h => hq (List.mem_cons_of_mem _ h))]
      exact h1 q (fun h => hq (h ▸ List.mem_cons_self _ _))

/-- After a successful release loop every pin of the list is an input. -/
theorem terminate_taxi_loop_inputs (env : Env) (pins : List GpioPin) (w : World)
    (h : (terminate_taxi_loop env pins w).1 = 0) (q : GpioPin) (hq : q ∈ pins) :
    (terminate_taxi_loop env pins w).2.direction q = false := by
  induction pins generalizing w with
  | nil => cases hq
  | cons r pins ih =>
    simp only [terminate_taxi_loop] at h ⊢
    by_cases hr : (tear_down_taxi_gpio env r w).1 = 0
    · simp only [hr, ne_eq, not_true_eq_false, if_false] at h ⊢
      by_cases hmem : q ∈ pins
      · exact ih _ h hmem
      · have hqr : q = r := by
          rcases List.mem_cons.mp hq with h' | h'
          · exact h'
          · exact absurd h' hmem
        subst hqr
        rw [(terminate_taxi_loop_frame env pins _).1 q hmem]
        unfold tear_down_taxi_gpio at hr ⊢
        split_ifs at hr ⊢
        · simp [EINVAL] at hr
        · simp [pin_release_reservation, gpio_set_pin_direction]
    · simp [hr] at h

/-- C6 (as stated, refuted): when the release of the first pin fails (the pin
manager answers 5 for P5_2), `terminate_taxi` returns 5 after the halt and the
two calls for `u4_oe`; nothing is called for `u5_oe` and `trigger`, which stay
outputs and stay reserved. -/
theorem terminate_taxi_stops_early :
    (terminate_taxi stuck_env streaming_world).1 = 5 ∧
    (terminate_taxi stuck_env streaming_world).2.trace =
      [Action.sgpio_halt,
       Action.gpio_set_pin_direction u4_oe false,
       Action.pin_release_reservation 5 2 5] ∧
    (terminate_taxi stuck_env streaming_world).2.direction u5_oe = true ∧
    (terminate_taxi stuck_env streaming_world).2.direction trigger = true ∧
    (terminate_taxi stuck_env streaming_world).2.reservation 6 4 = some CLASS_NUMBER_SELF ∧
    (terminate_taxi stuck_env streaming_world).2.reservation 1 0 = some CLASS_NUMBER_SELF := by
  decide

/-- C6 (amended): `terminate_taxi` halts the capture engine and calls
`tear_down_taxi_gpio` on the control pins in order, up to and including the first
one that fails: it then returns that pin's code, the world is the one that
`tear_down_taxi_gpio` left, the direction of the pins after it is untouched and
`taxi_initialized` is as it was.  When none fails it returns 0, all three pins
are inputs and `taxi_initialized` is false. -/
theorem terminate_taxi_first_failure (env : Env) (w : World) :
    (∀ (pre post : List GpioPin) (pin : GpioPin),
      gpio_pins = pre ++ pin :: post →
      (terminate_taxi_loop env pre (sgpio_halt w)).1 = 0 →
      (tear_down_taxi_gpio env pin (terminate_taxi_loop env pre (sgpio_halt w)).2).1 ≠ 0 →
        terminate_taxi env w =
          tear_down_taxi_gpio env pin (terminate_taxi_loop env pre (sgpio_halt w)).2 ∧
        (∀ q ∈ post, (terminate_taxi env w).2.direction q = w.direction q) ∧
        (terminate_taxi env w).2.taxi_initialized = w.taxi_initialized) ∧
    ((terminate_taxi_loop env gpio_pins (sgpio_halt w)).1 = 0 →
        (terminate_taxi env w).1 = 0 ∧
        (∀ q ∈ gpio_pins, (terminate_taxi env w).2.direction q = false) ∧
        (terminate_taxi env w).2.taxi_initialized = false) := by
  constructor
  · intro pre post pin hk hpre hfail
    have hloop : terminate_taxi_loop env gpio_pins (sgpio_halt w)
        = tear_down_taxi_gpio env pin (terminate_taxi_loop env pre (sgpio_halt w)).2 := by
      rw [hk, terminate_taxi_loop_append]
      simp only [hpre, ne_eq, not_true_eq_false, if_false, terminate_taxi_loop]
      simp [hfail]
    have hterm : terminate_taxi env w
        = tear_down_taxi_gpio env pin (terminate_taxi_loop env pre (sgpio_halt w)).2 := by
      simp only [terminate_taxi, hloop]
      simp [hfail]
    have hnodup : gpio_pins.Nodup := by decide
    rw [hk] at hnodup
    obtain ⟨f1, _, f3, _⟩ := tear_down_taxi_gpio_frame env pin
      (terminate_taxi_loop env pre (sgpio_halt w)).2
    obtain ⟨l1, _, l3, _⟩ := terminate_taxi_loop_frame env pre (sgpio_halt w)
    rw [hterm]
    refine ⟨rfl, ?_, ?_⟩
    · intro q hq
      have hqpin : q ≠ pin := by
        rintro rfl
        have := (List.nodup_append.mp hnodup).2.1
        exact (List.nodup_cons.mp this).1 hq
      have hqpre : q ∉ pre := by
        intro hmem
        exact (List.nodup_append.mp hnodup).2.2 hmem (List.mem_cons_of_mem _ hq)
      rw [f1 q hqpin, l1 q hqpre]
      rfl
    · rw [f3, l3]
      rfl
  · intro hok
    have hterm : terminate_taxi env w =
        (0, { (terminate_taxi_loop env gpio_pins (sgpio_halt w)).2 with
          taxi_initialized := false }) := by
      simp [terminate_taxi, hok]
    rw [hterm]
    refine ⟨rfl, ?_, rfl⟩
    intro q hq
    exact terminate_taxi_loop_inputs env gpio_pins (sgpio_halt w) hok q hq

/-- The amended C6 at work: the release of the first pin failing in mid-capture. -/
theorem terminate_taxi_first_failure_witness :
    terminate_taxi stuck_env streaming_world =
      tear_down_taxi_gpio stuck_env u4_oe (terminate_taxi_loop stuck_env [] (sgpio_halt streaming_world)).2 ∧
    (∀ q ∈ [u5_oe, trigger],
      (terminate_taxi stuck_env streaming_world).2.direction q = streaming_world.direction q) ∧
    (terminate_taxi stuck_env streaming_world).2.taxi_initialized
      = streaming_world.taxi_initialized :=
  (terminate_taxi_first_failure stuck_env streaming_world).1 [] [u5_oe, trigger] u4_oe
    (by decide) (by decide) (by decide)

/-! ## The all-success path -/

/-- A reservation request changes no record but that of its own pin. -/
theorem Registry.ensure_other (reg : Registry) (g p cls g' p' : Nat)
    (h : ¬ (g' = g ∧ p' = p)) : (reg.ensure g p cls).2 g' p' = reg g' p' := by
  cases hgp : reg g p with
  | some owner =>
    by_cases ho : owner = cls <;> simp [Registry.ensure, hgp, ho]
  | none =>
    simp only [Registry.ensure, hgp]
    exact Registry.put_other _ _ _ _ _ _ h

/-- A reservation request for a class gives no pin to another class. -/
theorem Registry.ensure_not_other (reg : Registry) (g p cls g' p' : Nat)
    (h : ∀ c, reg g' p' = some c → c = cls) :
    ∀ c, (reg.ensure g p cls).2 g' p' = some c → c = cls := by
  intro c hc
  by_cases hgp : g' = g ∧ p' = p
  · obtain ⟨rfl, rfl⟩ := hgp
    cases hreg : reg g' p' with
    | some owner =>
      have ho : owner = cls := h owner hreg
      simp [Registry.ensure, hreg, ho] at hc
      exact hc.symm
    | none =>
      simp [Registry.ensure, hreg, Registry.put] at hc
      exact hc.symm
  · rw [Registry.ensure_other _ _ _ _ _ _ hgp] at hc
    exact h c hc

/-- `set_up_taxi_gpio` changes no record but that of its own pin. -/
theorem set_up_taxi_gpio_other (env : Env) (pin : GpioPin) (w : World) (g p : Nat)
    (h : ¬ (g = scu_group_of env pin ∧ p = scu_pin_of env pin)) :
    (set_up_taxi_gpio env pin w).2.reservation g p = w.reservation g p := by
  rw [set_up_taxi_gpio_eq]
  split_ifs
  · rfl
  · simpa [pin_ensure_reservation] using Registry.ensure_other _ _ _ _ _ _ h
  · simpa [pin_ensure_reservation, gpio_configure_pinmux, World.emit] using
      Registry.ensure_other _ _ _ _ _ _ h

/-- `set_up_taxi_gpio` gives no pin to another class. -/
theorem set_up_taxi_gpio_not_other (env : Env) (pin : GpioPin) (w : World) (g p : Nat)
    (h : ∀ c, w.reservation g p = some c → c = CLASS_NUMBER_SELF) :
    ∀ c, (set_up_taxi_gpio env pin w).2.reservation g p = some c → c = CLASS_NUMBER_SELF := by
  rw [set_up_taxi_gpio_eq]
  split_ifs
  · exact h
  · simpa [pin_ensure_reservation] using Registry.ensure_not_other _ _ _ _ _ _ h
  · simpa [pin_ensure_reservation, gpio_configure_pinmux, World.emit] using
      Registry.ensure_not_other _ _ _ _ _ _ h

/-- With a valid pin that no other class holds and a mux call that succeeds,
`set_up_taxi_gpio` succeeds. -/
theorem set_up_taxi_gpio_succeeds (env : Env) (pin : GpioPin) (w : World)
    (hmux : ∀ v q, env.gpio_configure_pinmux v q = 0)
    (hvalid : ¬ (scu_group_of env pin = 0xff ∨ scu_pin_of env pin = 0xff))
    (hfree : ∀ c, w.reservation (scu_group_of env pin) (scu_pin_of env pin) = some c →
      c = CLASS_NUMBER_SELF) :
    (set_up_taxi_gpio env pin w).1 = 0 := by
  have hgrant : ¬ (pin_ensure_reservation (scu_group_of env pin) (scu_pin_of env pin)
      CLASS_NUMBER_SELF w).1 = false := by
    simp only [pin_ensure_reservation]
    rw [Registry.ensure_refused_iff]
    rintro ⟨c, hc, hne⟩
    exact hne (hfree c hc)
  rw [set_up_taxi_gpio_eq, if_neg hvalid, if_neg hgrant]
  simp [gpio_configure_pinmux, hmux]

/-- With valid pins that no other class holds and mux calls that succeed, the
acquire loop succeeds. -/
theorem initialize_taxi_loop_succeeds (env : Env) (pins : List GpioPin) (w : World)
    (hmux : ∀ v q, env.gpio_configure_pinmux v q = 0)
    (hvalid : ∀ q ∈ pins, ¬ (scu_group_of env q = 0xff ∨ scu_pin_of env q = 0xff))
    (hfree : ∀ q ∈ pins, ∀ c, w.reservation (scu_group_of env q) (scu_pin_of env q) = some c →
      c = CLASS_NUMBER_SELF) :
    (initialize_taxi_loop env pins w).1 = 0 := by
  induction pins generalizing w with
  | nil => rfl
  | cons r pins ih =>
    have hr := set_up_taxi_gpio_succeeds env r w hmux (hvalid r (List.mem_cons_self _ _))
      (hfree r (List.mem_cons_self _ _))
    simp only [initialize_taxi_loop, hr, ne_eq, not_true_eq_false, if_false]
    apply ih
    · intro q hq
      exact hvalid q (List.mem_cons_of_mem _ hq)
    · intro q hq
      simpa [gpio_set_pin, gpio_set_pin_direction] using
        set_up_taxi_gpio_not_other env r w _ _ (hfree q (List.mem_cons_of_mem _ hq))

/-- The acquire loop changes no record but those of its pins, and neither the
direction nor the level of any other pin. -/
theorem initialize_taxi_loop_others (env : Env) (pins : List GpioPin) (w : World) :
    (∀ g p, (∀ q ∈ pins, ¬ (g = scu_group_of env q ∧ p = scu_pin_of env q)) →
      (initialize_taxi_loop env pins w).2.reservation g p = w.reservation g p) ∧
    (∀ q, q ∉ pins → (initialize_taxi_loop env pins w).2.direction q = w.direction q) ∧
    (∀ q, q ∉ pins → (initialize_taxi_loop env pins w).2.level q = w.level q) := by
  induction pins generalizing w with
  | nil => exact ⟨fun _ _ _ => rfl, fun _ _ => rfl, fun _ _ => rfl⟩
  | cons r pins ih =>
    simp only [initialize_taxi_loop]
    split_ifs
    · refine ⟨?_, ?_, ?_⟩
      · intro g p hgp
        exact set_up_taxi_gpio_other env r w g p (hgp r (List.mem_cons_self _ _))
      · intro q _
        rw [set_up_taxi_gpio_direction]
      · intro q _
        rw [set_up_taxi_gpio_level]
    · obtain ⟨k1, k2, k3⟩ := ih (gpio_set_pin r (gpio_set_pin_direction r true
        (set_up_taxi_gpio env r w).2))
      refine ⟨?_, ?_, ?_⟩
      · intro g p hgp
        rw [k1 g p (fun q hq => hgp q (List.mem_cons_of_mem _ hq))]
        simpa [gpio_set_pin, gpio_set_pin_direction] using
          set_up_taxi_gpio_other env r w g p (hgp r (List.mem_cons_self _ _))
      · intro q hq
        have hqr : ¬ q = r := fun h => hq (h ▸ List.mem_cons_self _ _)
        rw [k2 q (fun h => hq (List.mem_cons_of_mem _ h))]
        simp [gpio_set_pin, gpio_set_pin_direction, set_up_taxi_gpio_direction, hqr]
      · intro q hq
        have hqr : ¬ q = r := fun h => hq (h ▸ List.mem_cons_self _ _)
        rw [k3 q (fun h => hq (List.mem_cons_of_mem _ h))]
        simp [gpio_set_pin, gpio_set_pin_direction, set_up_taxi_gpio_level, hqr]

/-- A release changes no record but that of its own pin. -/
theorem Registry.release_other (reg : Registry) (g p g' p' : Nat) (rc : Int)
    (h : ¬ (g' = g ∧ p' = p)) : reg.release g p rc g' p' = reg g' p' := by
  unfold Registry.release
  split_ifs
  · exact Registry.put_other _ _ _ _ _ _ h
  · rfl

/-- A release reserves nothing. -/
theorem Registry.release_keeps_free (reg : Registry) (g p g' p' : Nat) (rc : Int)
    (h : reg g' p' = none) : reg.release g p rc g' p' = none := by
  unfold Registry.release
  split_ifs
  · by_cases hgp : g' = g ∧ p' = p
    · obtain ⟨rfl, rfl⟩ := hgp
      exact Registry.put_same _ _ _ _
    · rw [Registry.put_other _ _ _ _ _ _ hgp]
      exact h
  · exact h

/-- `tear_down_taxi_gpio` changes no record but that of its own pin, and reserves
nothing. -/
theorem tear_down_taxi_gpio_registry (env : Env) (pin : GpioPin) (w : World) :
    (∀ g p, ¬ (g = scu_group_of env pin ∧ p = scu_pin_of env pin) →
      (tear_down_taxi_gpio env pin w).2.reservation g p = w.reservation g p) ∧
    (∀ g p, w.reservation g p = none →
      (tear_down_taxi_gpio env pin w).2.reservation g p = none) := by
  unfold tear_down_taxi_gpio
  split_ifs
  · exact ⟨fun _ _ _ => rfl, fun _ _ h => h⟩
  · refine ⟨?_, ?_⟩
    · intro g p hgp
      simpa [pin_release_reservation, gpio_set_pin_direction] using
        Registry.release_other w.reservation _ _ g p _ hgp
    · intro g p hnone
      simpa [pin_release_reservation, gpio_set_pin_direction] using
        Registry.release_keeps_free w.reservation _ _ g p _ hnone

/-- A successful `tear_down_taxi_gpio` leaves its pin free. -/
theorem tear_down_taxi_gpio_released (env : Env) (pin : GpioPin) (w : World)
    (h : (tear_down_taxi_gpio env pin w).1 = 0) :
    (tear_down_taxi_gpio env pin w).2.reservation (scu_group_of env pin) (scu_pin_of env pin)
      = none := by
  unfold tear_down_taxi_gpio at h ⊢
  split_ifs at h ⊢
  · simp [EINVAL] at h
  · simp only [pin_release_reservation] at h
    simp only [pin_release_reservation, Registry.release, h, if_true]
    exact Registry.put_same _ _ _ _

/-- With a valid pin and a pin manager that reports success, `tear_down_taxi_gpio`
succeeds. -/
theorem tear_down_taxi_gpio_succeeds (env : Env) (pin : GpioPin) (w : World)
    (hrel : ∀ v g p, env.pin_release_reservation v g p = 0)
    (hvalid : ¬ (scu_group_of env pin = 0xff ∨ scu_pin_of env pin = 0xff)) :
    (tear_down_taxi_gpio env pin w).1 = 0 := by
  unfold tear_down_taxi_gpio
  rw [if_neg hvalid]
  simp [pin_release_reservation, hrel]

/-- With valid pins and a pin manager that reports success, the release loop
succeeds. -/
theorem terminate_taxi_loop_succeeds (env : Env) (pins : List GpioPin) (w : World)
    (hrel : ∀ v g p, env.pin_release_reservation v g p = 0)
    (hvalid : ∀ q ∈ pins, ¬ (scu_group_of env q = 0xff ∨ scu_pin_of env q = 0xff)) :
    (terminate_taxi_loop env pins w).1 = 0 := by
  induction pins generalizing w with
  | nil => rfl
  | cons r pins ih =>
    have hr := tear_down_taxi_gpio_succeeds env r w hrel (hvalid r (List.mem_cons_self _ _))
    simp only [terminate_taxi_loop, hr, ne_eq, not_true_eq_false, if_false]
    exact ih _ (fun q hq => hvalid q (List.mem_cons_of_mem _ hq))

/-- The release loop changes no record but those of its pins, and reserves
nothing. -/
theorem terminate_taxi_loop_registry (env : Env) (pins : List GpioPin) (w : World) :
    (∀ g p, (∀ q ∈ pins, ¬ (g = scu_group_of env q ∧ p = scu_pin_of env q)) →
      (terminate_taxi_loop env pins w).2.reservation g p = w.reservation g p) ∧
    (∀ g p, w.reservation g p = none →
      (terminate_taxi_loop env pins w).2.reservation g p = none) := by
  induction pins generalizing w with
  | nil => exact ⟨fun _ _ _ => rfl, fun _ _ h => h⟩
  | cons r pins ih =>
    obtain ⟨t1, t2⟩ := tear_down_taxi_gpio_registry env r w
    simp only [terminate_taxi_loop]
    split_ifs
    · exact ⟨fun g p hgp => t1 g p (hgp r (List.mem_cons_self _ _)), t2⟩
    · obtain ⟨k1, k2⟩ := ih (tear_down_taxi_gpio env r w).2
      refine ⟨?_, ?_⟩
      · intro g p hgp
        rw [k1 g p (fun q hq => hgp q (List.mem_cons_of_mem _ hq))]
        exact t1 g p (hgp r (List.mem_cons_self _ _))
      · intro g p hnone
        exact k2 g p (t2 g p hnone)

/-- After a successful release loop every pin of the list is free. -/
theorem terminate_taxi_loop_released (env : Env) (pins : List GpioPin) (w : World)
    (h : (terminate_taxi_loop env pins w).1 = 0) (q : GpioPin) (hq : q ∈ pins) :
    (terminate_taxi_loop env pins w).2.reservation (scu_group_of env q) (scu_pin_of env q)
      = none := by
  induction pins generalizing w with
  | nil => cases hq
  | cons r pins ih =>
    simp only [terminate_taxi_loop] at h ⊢
    by_cases hr : (tear_down_taxi_gpio env r w).1 = 0
    · simp only [hr, ne_eq, not_true_eq_false, if_false] at h ⊢
      rcases List.mem_cons.mp hq with rfl | hq'
      · exact (terminate_taxi_loop_registry env pins _).2 _ _
          (tear_down_taxi_gpio_released env q w hr)
      · exact ih _ h hq'
    · simp [hr] at h

/-- When the synchronizer loop ends within the fuel, `frame_sync_wait` returns and
changes nothing but the hardware read counter and the trace. -/
theorem frame_sync_wait_returns (env : Env) (fuel : Nat) (w : World)
    (hsync : ∀ t, (frame_sync_run env fuel t).isSome = true) :
    ∃ w1, frame_sync_wait env fuel w = some w1 ∧
      w1.taxi_initialized = w.taxi_initialized ∧ w1.reservation = w.reservation ∧
      w1.direction = w.direction ∧ w1.level = w.level ∧
      w1.sgpio_running = w.sgpio_running ∧ w1.streaming = w.streaming := by
  unfold frame_sync_wait
  cases hr : frame_sync_run env fuel w.ticks with
  | none =>
    have := hsync w.ticks
    rw [hr] at this
    cases this
  | some r => exact ⟨_, rfl, rfl, rfl, rfl, rfl, rfl, rfl⟩

/-- With a successful acquire loop, a successful `sgpio_set_up_functions` and a
synchronizer that ends, `verb_start_receive` returns 0. -/
theorem verb_start_receive_succeeds (env : Env) (fuel : Nat) (w : World)
    (hloop : (initialize_taxi_loop env gpio_pins w).1 = 0)
    (hcfg : ∀ v, env.sgpio_set_up_functions v = 0)
    (hsync : ∀ t, (frame_sync_run env fuel t).isSome = true) :
    ∃ w', verb_start_receive env fuel w = some (0, w') ∧
      w'.taxi_initialized = true ∧
      w'.reservation = (initialize_taxi_loop env gpio_pins w).2.reservation ∧
      w'.direction = (initialize_taxi_loop env gpio_pins w).2.direction ∧
      w'.level = (initialize_taxi_loop env gpio_pins w).2.level ∧
      w'.sgpio_running = true ∧ w'.streaming = true := by
  have hinit : initialize_taxi env w =
      (0, { (initialize_taxi_loop env gpio_pins w).2 with taxi_initialized := true }) := by
    simp [initialize_taxi, hloop]
  obtain ⟨wa, ha, a1, a2, a3, a4, a5, a6⟩ := frame_sync_wait_returns env fuel
    (usb_streaming_start_streaming_to_host (sgpio_set_up_functions env
      (platform_scu_configure_pin_fast_io taxi_dstrb_pin.scu_group taxi_dstrb_pin.scu_pin 7
        taxi_dstrb_pin.pull_resistors (initialize_taxi env w).2)).2) hsync
  obtain ⟨wb, hb, b1, b2, b3, b4, b5, b6⟩ := frame_sync_wait_returns env fuel wa hsync
  refine ⟨sgpio_run wb, ?_, ?_, ?_, ?_, ?_, ?_, ?_⟩
  · simp only [verb_start_receive]
    rw [if_neg (by simp [hinit]), if_neg (by simp [sgpio_set_up_functions, hcfg]), ha]
    simp [hb]
  · simp [sgpio_run, b1, a1, usb_streaming_start_streaming_to_host, sgpio_set_up_functions,
      platform_scu_configure_pin_fast_io, World.emit, hinit]
  · simp [sgpio_run, b2, a2, usb_streaming_start_streaming_to_host, sgpio_set_up_functions,
      platform_scu_configure_pin_fast_io, World.emit, hinit]
  · simp [sgpio_run, b3, a3, usb_streaming_start_streaming_to_host, sgpio_set_up_functions,
      platform_scu_configure_pin_fast_io, World.emit, hinit]
  · simp [sgpio_run, b4, a4, usb_streaming_start_streaming_to_host, sgpio_set_up_functions,
      platform_scu_configure_pin_fast_io, World.emit, hinit]
  · simp [sgpio_run]
  · simp [sgpio_run, b6, a6, usb_streaming_start_streaming_to_host]

/-- With a successful release loop, `verb_stop` returns 0, the flag is cleared, the
transport is stopped and the engine halted. -/
theorem verb_stop_succeeds (env : Env) (w : World)
    (hloop : (terminate_taxi_loop env gpio_pins
      (sgpio_halt (usb_streaming_stop_streaming_to_host w))).1 = 0) :
    (verb_stop env w).1 = 0 ∧
    (verb_stop env w).2.taxi_initialized = false ∧
    (verb_stop env w).2.reservation = (terminate_taxi_loop env gpio_pins
      (sgpio_halt (usb_streaming_stop_streaming_to_host w))).2.reservation ∧
    (verb_stop env w).2.direction = (terminate_taxi_loop env gpio_pins
      (sgpio_halt (usb_streaming_stop_streaming_to_host w))).2.direction ∧
    (verb_stop env w).2.level = w.level ∧
    (verb_stop env w).2.sgpio_running = false ∧
    (verb_stop env w).2.streaming = false := by
  have hterm : verb_stop env w = (0, { (terminate_taxi_loop env gpio_pins
      (sgpio_halt (usb_streaming_stop_streaming_to_host w))).2 with
        taxi_initialized := false }) := by
    simp [verb_stop, terminate_taxi, hloop]
  obtain ⟨_, f2, _, f4, f5, _⟩ := terminate_taxi_loop_frame env gpio_pins
    (sgpio_halt (usb_streaming_stop_streaming_to_host w))
  rw [hterm]
  refine ⟨rfl, rfl, rfl, rfl, ?_, ?_, ?_⟩
  · simpa [sgpio_halt, usb_streaming_stop_streaming_to_host] using f2
  · simpa [sgpio_halt, usb_streaming_stop_streaming_to_host] using f5
  · simpa [sgpio_halt, usb_streaming_stop_streaming_to_host] using f4

/-! ## Round trip -/

/-- One `start_receive` / `stop` pair with the control pins free and every driver
call succeeding: both verbs return 0, and the world afterwards is the one before
except that the flag is clear, the control pins are inputs with their level
latched high, the transport is stopped and the engine halted. -/
theorem start_stop_once (env : Env) (fuel : Nat) (w : World)
    (hvalid : ∀ q ∈ gpio_pins, ¬ (scu_group_of env q = 0xff ∨ scu_pin_of env q = 0xff))
    (hmux : ∀ v q, env.gpio_configure_pinmux v q = 0)
    (hrel : ∀ v g p, env.pin_release_reservation v g p = 0)
    (hcfg : ∀ v, env.sgpio_set_up_functions v = 0)
    (hsync : ∀ t, (frame_sync_run env fuel t).isSome = true)
    (hfree : ∀ q ∈ gpio_pins, w.reservation (scu_group_of env q) (scu_pin_of env q) = none) :
    ∃ w1, start_stop env fuel w = some (0, 0, w1) ∧
      w1.taxi_initialized = false ∧
      w1.reservation = w.reservation ∧
      (∀ q, w1.direction q = if q ∈ gpio_pins then false else w.direction q) ∧
      (∀ q, w1.level q = if q ∈ gpio_pins then true else w.level q) ∧
      w1.sgpio_running = false ∧ w1.streaming = false := by
  have hloop : (initialize_taxi_loop env gpio_pins w).1 = 0 := by
    apply initialize_taxi_loop_succeeds env gpio_pins w hmux hvalid
    intro q hq c hc
    rw [hfree q hq] at hc
    cases hc
  obtain ⟨ws, hs, _, s2, s3, s4, _, _⟩ := verb_start_receive_succeeds env fuel w hloop hcfg hsync
  have hT := terminate_taxi_loop_succeeds env gpio_pins
    (sgpio_halt (usb_streaming_stop_streaming_to_host ws)) hrel hvalid
  obtain ⟨p1, p2, p3, p4, p5, p6, p7⟩ := verb_stop_succeeds env ws hT
  obtain ⟨o1, o2, o3⟩ := initialize_taxi_loop_others env gpio_pins w
  obtain ⟨r1, _⟩ := terminate_taxi_loop_registry env gpio_pins
    (sgpio_halt (usb_streaming_stop_streaming_to_host ws))
  obtain ⟨f1, _⟩ := terminate_taxi_loop_frame env gpio_pins
    (sgpio_halt (usb_streaming_stop_streaming_to_host ws))
  refine ⟨(verb_stop env ws).2, ?_, p2, ?_, ?_, ?_, p6, p7⟩
  · simp only [start_stop, hs, Option.map_some', p1]
  · rw [p3]
    funext g p
    by_cases hcoord : ∃ q ∈ gpio_pins, g = scu_group_of env q ∧ p = scu_pin_of env q
    · obtain ⟨q, hq, rfl, rfl⟩ := hcoord
      rw [terminate_taxi_loop_released env gpio_pins _ hT q hq, hfree q hq]
    · have hno : ∀ q ∈ gpio_pins, ¬ (g = scu_group_of env q ∧ p = scu_pin_of env q) :=
        fun q hq h => hcoord ⟨q, hq, h⟩
      rw [r1 g p hno]
      show ws.reservation g p = w.reservation g p
      rw [s2, o1 g p hno]
  · intro q
    rw [p4]
    by_cases hq : q ∈ gpio_pins
    · rw [if_pos hq]
      exact terminate_taxi_loop_inputs env gpio_pins _ hT q hq
    · rw [if_neg hq, f1 q hq]
      show ws.direction q = w.direction q
      rw [s3, o2 q hq]
  · intro q
    rw [p5, s4]
    by_cases hq : q ∈ gpio_pins
    · rw [if_pos hq]
      exact (initialize_taxi_loop_acquired env gpio_pins w hloop q hq).2.2
    · rw [if_neg hq, o3 q hq]

/-- Any number of `start_receive` / `stop` pairs, at least one, under the
conditions of `start_stop_once`: every verb returns 0 and the world after the last
`stop` is described as after the first. -/
theorem start_stop_repeat (env : Env) (fuel : Nat)
    (hvalid : ∀ q ∈ gpio_pins, ¬ (scu_group_of env q = 0xff ∨ scu_pin_of env q = 0xff))
    (hmux : ∀ v q, env.gpio_configure_pinmux v q = 0)
    (hrel : ∀ v g p, env.pin_release_reservation v g p = 0)
    (hcfg : ∀ v, env.sgpio_set_up_functions v = 0)
    (hsync : ∀ t, (frame_sync_run env fuel t).isSome = true)
    (n : Nat) (w : World)
    (hfree : ∀ q ∈ gpio_pins, w.reservation (scu_group_of env q) (scu_pin_of env q) = none) :
    ∃ wn, start_stop_cycles env fuel (n + 1) w = some wn ∧
      wn.taxi_initialized = false ∧
      wn.reservation = w.reservation ∧
      (∀ q, wn.direction q = if q ∈ gpio_pins then false else w.direction q) ∧
      (∀ q, wn.level q = if q ∈ gpio_pins then true else w.level q) ∧
      wn.sgpio_running = false ∧ wn.streaming = false := by
  induction n generalizing w with
  | zero =>
    obtain ⟨w1, h1, k⟩ := start_stop_once env fuel w hvalid hmux hrel hcfg hsync hfree
    exact ⟨w1, by simp [start_stop_cycles, h1], k⟩
  | succ n ih =>
    obtain ⟨w1, h1, k1, k2, k3, k4, k5, k6⟩ :=
      start_stop_once env fuel w hvalid hmux hrel hcfg hsync hfree
    have hfree1 : ∀ q ∈ gpio_pins,
        w1.reservation (scu_group_of env q) (scu_pin_of env q) = none := by
      intro q hq
      rw [k2]
      exact hfree q hq
    obtain ⟨wn, hn, m1, m2, m3, m4, m5, m6⟩ := ih w1 hfree1
    refine ⟨wn, ?_, m1, m2.trans k2, ?_, ?_, m5, m6⟩
    · rw [start_stop_cycles, h1]
      simpa using hn
    · intro q
      rw [m3 q, k3 q]
      split_ifs <;> rfl
    · intro q
      rw [m4 q, k4 q]
      split_ifs <;> rfl

/-- On the pulsing strobe of `pulsing_env` the synchronizer loop is still polling
after any number of passes: every second sample is a rising one and resets the
baseline, so the elapsed time never gets beyond 300 units. -/
theorem pulsing_env_loop_never_ends :
    ∀ (fuel k : Nat),
      (k % 5 = 0 → ∀ base, get_time_since pulsing_env base (k + 1) < 1000 →
        frame_sync_loop pulsing_env fuel base false (k + 1) = none) ∧
      (k % 5 = 3 →
        frame_sync_loop pulsing_env fuel (get_time pulsing_env k) true (k + 1) = none) := by
  intro fuel
  induction fuel with
  | zero =>
    intro k
    exact ⟨fun _ _ _ => rfl, fun _ => rfl⟩
  | succ fuel ih =>
    intro k
    constructor
    · intro hk base hlt
      have hs : pulsing_env.sgpio_pin_state (k + 1 + 1) = 512 := by
        have : (k + 1 + 1) % 5 = 2 := by omega
        simp [pulsing_env, this]
      have hnext := (ih (k + 3)).2 (by omega)
      rw [frame_sync_loop, if_pos hlt]
      simp only [hs]
      simpa using hnext
    · intro hk
      have hlt : get_time_since pulsing_env (get_time pulsing_env k) (k + 1) < 1000 := by
        simp only [get_time_since, get_time, pulsing_env]
        norm_num
        omega
      have hs : pulsing_env.sgpio_pin_state (k + 1 + 1) = 0 := by
        have : ¬ (k + 1 + 1) % 5 = 2 := by omega
        simp [pulsing_env, this]
      have hlt2 : get_time_since pulsing_env (get_time pulsing_env k) (k + 2 + 1) < 1000 := by
        simp only [get_time_since, get_time, pulsing_env]
        norm_num
        omega
      have hnext := (ih (k + 2)).1 (by omega) (get_time pulsing_env k) hlt2
      rw [frame_sync_loop, if_pos hlt]
      simp only [hs]
      simpa using hnext

/-- C3 (as stated, refuted): after reset the three control pins are valid and
free and in `pulsing_env` every driver call succeeds, yet `verb_start_receive`
does not return, however many passes the synchronizer is given: the strobe keeps
pulsing and `frame_sync_wait` has no overall timeout.  So the start / stop pair
does not return 0, 0. -/
theorem start_never_returns_on_pulsing_strobe :
    idle_world.taxi_initialized = false ∧
    (∀ q ∈ gpio_pins, ¬ (scu_group_of pulsing_env q = 0xff ∨ scu_pin_of pulsing_env q = 0xff)) ∧
    (∀ q ∈ gpio_pins,
      idle_world.reservation (scu_group_of pulsing_env q) (scu_pin_of pulsing_env q) = none) ∧
    (∀ v q, pulsing_env.gpio_configure_pinmux v q = 0) ∧
    (∀ v g p, pulsing_env.pin_release_reservation v g p = 0) ∧
    (∀ v, pulsing_env.sgpio_set_up_functions v = 0) ∧
    (∀ fuel, verb_start_receive pulsing_env fuel idle_world = none) ∧
    (∀ fuel, start_stop pulsing_env fuel idle_world = none) := by
  have hrun : ∀ fuel, frame_sync_run pulsing_env fuel 0 = none := by
    intro fuel
    have hlt : get_time_since pulsing_env (get_time pulsing_env 0) (0 + 1) < 1000 := by
      decide
    exact (pulsing_env_loop_never_ends fuel 0).1 rfl _ hlt
  have hstart : ∀ fuel, verb_start_receive pulsing_env fuel idle_world = none := by
    intro fuel
    have hinit : ¬ (initialize_taxi pulsing_env idle_world).1 ≠ 0 := by decide
    have hcfg : ¬ (sgpio_set_up_functions pulsing_env
        (platform_scu_configure_pin_fast_io taxi_dstrb_pin.scu_group taxi_dstrb_pin.scu_pin 7
          taxi_dstrb_pin.pull_resistors (initialize_taxi pulsing_env idle_world).2)).1 ≠ 0 := by
      decide
    have hticks : (usb_streaming_start_streaming_to_host (sgpio_set_up_functions pulsing_env
        (platform_scu_configure_pin_fast_io taxi_dstrb_pin.scu_group taxi_dstrb_pin.scu_pin 7
          taxi_dstrb_pin.pull_resistors (initialize_taxi pulsing_env idle_world).2)).2).ticks
          = 0 := by
      decide
    simp only [verb_start_receive]
    rw [if_neg hinit, if_neg hcfg]
    simp only [frame_sync_wait, hticks, hrun fuel, Option.map_none', Option.none_bind]
  refine ⟨rfl, by decide, by decide, fun _ _ => rfl, fun _ _ _ => rfl, fun _ => rfl,
    hstart, ?_⟩
  intro fuel
  simp only [start_stop, hstart fuel, Option.map_none']

/-- C3 (amended): with the control pins valid and free, every driver call
succeeding and a strobe on which the synchronizer loop ends (within the fuel,
from any hardware read on), `verb_start_receive` followed by `verb_stop` both return
0 and leave `taxi_initialized` false, the three control pins free (the registry
is exactly as before, so nothing is left reserved for class `0x199`), the
transport stopped and the capture engine halted; this holds whatever the flag was
before, in particular from Idle.  For every `n ≥ 1`, `n` such cycles all return 0
and end in the same state as one cycle.  The synchronizer does end, within 501
passes, whenever the strobe is quiet and the timer advances steadily
(`frame_sync_run_quiet`). -/
theorem start_stop_round_trip (env : Env) (fuel : Nat) (w : World)
    (hvalid : ∀ q ∈ gpio_pins, ¬ (scu_group_of env q = 0xff ∨ scu_pin_of env q = 0xff))
    (hmux : ∀ v q, env.gpio_configure_pinmux v q = 0)
    (hrel : ∀ v g p, env.pin_release_reservation v g p = 0)
    (hcfg : ∀ v, env.sgpio_set_up_functions v = 0)
    (hsync : ∀ t, (frame_sync_run env fuel t).isSome = true)
    (hfree : ∀ q ∈ gpio_pins, w.reservation (scu_group_of env q) (scu_pin_of env q) = none) :
    ∃ w1, start_stop env fuel w = some (0, 0, w1) ∧
      w1.taxi_initialized = false ∧
      (∀ q ∈ gpio_pins, w1.reservation (scu_group_of env q) (scu_pin_of env q) = none) ∧
      w1.reservation = w.reservation ∧
      w1.sgpio_running = false ∧ w1.streaming = false ∧
      ∀ n, 1 ≤ n → ∃ wn, start_stop_cycles env fuel n w = some wn ∧ wn.view = w1.view := by
  obtain ⟨w1, h1, k1, k2, k3, k4, k5, k6⟩ :=
    start_stop_once env fuel w hvalid hmux hrel hcfg hsync hfree
  refine ⟨w1, h1, k1, ?_, k2, k5, k6, ?_⟩
  · intro q hq
    rw [k2]
    exact hfree q hq
  · intro n hn
    obtain ⟨m, rfl⟩ : ∃ m, n = m + 1 := ⟨n - 1, by omega⟩
    obtain ⟨wn, hwn, m1, m2, m3, m4, m5, m6⟩ :=
      start_stop_repeat env fuel hvalid hmux hrel hcfg hsync m w hfree
    refine ⟨wn, hwn, ?_⟩
    have hd : wn.direction = w1.direction := by
      funext q
      rw [m3 q, k3 q]
    have hl : wn.level = w1.level := by
      funext q
      rw [m4 q, k4 q]
    simp [World.view, m1, k1, m2, k2, hd, hl, m5, k5, m6, k6]

/-- The `uint32_t` difference computed by `get_time_since` is the true elapsed
time as long as less than `2 ^ 32` units have passed since the baseline. -/
theorem get_time_since_eq (env : Env) (t0 tick : Nat)
    (h0 : env.clock t0 ≤ env.clock tick) (h1 : env.clock tick < env.clock t0 + 2 ^ 32) :
    get_time_since env (get_time env t0) tick = env.clock tick - env.clock t0 := by
  simp only [get_time_since, get_time]
  norm_num at h1 ⊢
  omega

/-- Termination of the synchronizer loop on a quiet line: when the strobe bit
reads low at every hardware read and the timer advances by at least 1 and at most
`S` units per read (`2 * S + 1000 ≤ 2 ^ 32`), a loop whose baseline was taken at
read `t0` ends within `n + 1` passes once `1000 ≤ elapsed + 2 * n`. -/
theorem frame_sync_loop_quiet (env : Env) (S : Nat) (hS : 2 * S + 1000 ≤ 2 ^ 32)
    (hstep : ∀ i, env.clock i < env.clock (i + 1) ∧ env.clock (i + 1) ≤ env.clock i + S)
    (hlow : ∀ i, env.sgpio_pin_state i &&& (1 <<< 9) = 0) (t0 : Nat) :
    ∀ (n tick : Nat) (prev : Bool),
      env.clock t0 ≤ env.clock tick →
      env.clock tick < env.clock t0 + 1000 + 2 * S →
      env.clock t0 + 1000 ≤ env.clock tick + 2 * n →
      (frame_sync_loop env (n + 1) (get_time env t0) prev tick).isSome = true := by
  intro n
  induction n with
  | zero =>
    intro tick prev h0 h1 h2
    have hel := get_time_since_eq env t0 tick h0 (by omega)
    have hnot : ¬ get_time_since env (get_time env t0) tick < 1000 := by
      rw [hel]
      omega
    simp [frame_sync_loop, hnot]
  | succ n ih =>
    intro tick prev h0 h1 h2
    have hel := get_time_since_eq env t0 tick h0 (by omega)
    by_cases hc : get_time_since env (get_time env t0) tick < 1000
    · rw [hel] at hc
      obtain ⟨a1, a2⟩ := hstep tick
      have hb : env.clock (tick + 1) < env.clock (tick + 2) ∧
          env.clock (tick + 2) ≤ env.clock (tick + 1) + S := hstep (tick + 1)
      obtain ⟨b1, b2⟩ := hb
      have hnext := ih (tick + 2) false (by omega) (by omega) (by omega)
      have hcc : get_time_since env (get_time env t0) tick < 1000 := by
        rw [hel]
        exact hc
      rw [frame_sync_loop]
      simp only [hcc, if_true, hlow (tick + 1)]
      simpa using hnext
    · rw [frame_sync_loop]
      simp [hc]

/-- On a quiet line with a steadily advancing timer `frame_sync_wait` returns
within 501 passes, wherever it is started. -/
theorem frame_sync_run_quiet (env : Env) (S : Nat) (hS : 2 * S + 1000 ≤ 2 ^ 32)
    (hstep : ∀ i, env.clock i < env.clock (i + 1) ∧ env.clock (i + 1) ≤ env.clock i + S)
    (hlow : ∀ i, env.sgpio_pin_state i &&& (1 <<< 9) = 0) (t0 : Nat) :
    (frame_sync_run env 501 t0).isSome = true := by
  obtain ⟨a1, a2⟩ := hstep t0
  exact frame_sync_loop_quiet env S hS hstep hlow t0 500 (t0 + 1) false
    (by omega) (by omega) (by omega)

/-- In `quiet_env` the synchronizer loop ends on its second pass, wherever it is
started. -/
theorem quiet_env_sync (t : Nat) : (frame_sync_run quiet_env 2 t).isSome = true := by
  have h1 : get_time_since quiet_env (get_time quiet_env t) (t + 1) = 400 := by
    simp only [get_time_since, get_time, quiet_env]
    norm_num
    omega
  have h2 : get_time_since quiet_env (get_time quiet_env t) (t + 1 + 2) = 1200 := by
    simp only [get_time_since, get_time, quiet_env]
    norm_num
    omega
  have hq : quiet_env.sgpio_pin_state (t + 1 + 1) = 0 := rfl
  simp [frame_sync_run, frame_sync_loop, h1, h2, hq]

/-- C3 at work: after reset, in `quiet_env`, one cycle and five cycles. -/
theorem start_stop_round_trip_witness :
    (∀ q ∈ gpio_pins, ¬ (scu_group_of quiet_env q = 0xff ∨ scu_pin_of quiet_env q = 0xff)) ∧
    (∀ q ∈ gpio_pins,
      idle_world.reservation (scu_group_of quiet_env q) (scu_pin_of quiet_env q) = none) ∧
    ∃ w1, start_stop quiet_env 2 idle_world = some (0, 0, w1) ∧
      w1.taxi_initialized = false ∧
      w1.sgpio_running = false ∧
      ∃ w5, start_stop_cycles quiet_env 2 5 idle_world = some w5 ∧ w5.view = w1.view := by
  obtain ⟨w1, h1, h2, _, _, h5, _, h7⟩ := start_stop_round_trip quiet_env 2 idle_world
    (by decide) (fun _ _ => rfl) (fun _ _ _ => rfl) (fun _ => rfl) quiet_env_sync (by decide)
  exact ⟨by decide, by decide, w1, h1, h2, h5, h7 5 (by decide)⟩

/-! ## A second `stop` -/

/-- A `tear_down_taxi_gpio` that returns 0 was given a valid pin. -/
theorem tear_down_taxi_gpio_valid_of_ok (env : Env) (pin : GpioPin) (w : World)
    (h : (tear_down_taxi_gpio env pin w).1 = 0) :
    ¬ (scu_group_of env pin = 0xff ∨ scu_pin_of env pin = 0xff) := by
  intro hinv
  simp [tear_down_taxi_gpio, hinv, EINVAL] at h

/-- A release loop that returns 0 was given valid pins. -/
theorem terminate_taxi_loop_valid_of_ok (env : Env) (pins : List GpioPin) (w : World)
    (h : (terminate_taxi_loop env pins w).1 = 0) :
    ∀ q ∈ pins, ¬ (scu_group_of env q = 0xff ∨ scu_pin_of env q = 0xff) := by
  induction pins generalizing w with
  | nil => intro q hq; cases hq
  | cons r pins ih =>
    simp only [terminate_taxi_loop] at h
    by_cases hr : (tear_down_taxi_gpio env r w).1 = 0
    · simp only [hr, ne_eq, not_true_eq_false, if_false] at h
      intro q hq
      rcases List.mem_cons.mp hq with rfl | hq'
      · exact tear_down_taxi_gpio_valid_of_ok env q w hr
      · exact ih _ h q hq'
    · simp [hr] at h

/-- The calls of `tear_down_taxi_gpio` on a valid pin: the direction write, then
the release, whose answer is the code returned. -/
theorem tear_down_taxi_gpio_trace (env : Env) (pin : GpioPin) (w : World)
    (hvalid : ¬ (scu_group_of env pin = 0xff ∨ scu_pin_of env pin = 0xff)) :
    (tear_down_taxi_gpio env pin w).2.trace = w.trace ++
      [Action.gpio_set_pin_direction pin false,
       Action.pin_release_reservation (scu_group_of env pin) (scu_pin_of env pin)
         (tear_down_taxi_gpio env pin w).1] := by
  simp [tear_down_taxi_gpio, hvalid, pin_release_reservation, gpio_set_pin_direction]

/-- The release loop only appends to the trace. -/
theorem terminate_taxi_loop_trace (env : Env) (pins : List GpioPin) (w : World) :
    ∃ d, (terminate_taxi_loop env pins w).2.trace = w.trace ++ d := by
  induction pins generalizing w with
  | nil => exact ⟨[], by simp [terminate_taxi_loop]⟩
  | cons r pins ih =>
    have hr : ∃ d, (tear_down_taxi_gpio env r w).2.trace = w.trace ++ d := by
      by_cases hinv : scu_group_of env r = 0xff ∨ scu_pin_of env r = 0xff
      · exact ⟨[], by simp [tear_down_taxi_gpio, hinv]⟩
      · exact ⟨_, tear_down_taxi_gpio_trace env r w hinv⟩
    obtain ⟨d1, hd1⟩ := hr
    simp only [terminate_taxi_loop]
    split_ifs
    · exact ⟨d1, hd1⟩
    · obtain ⟨d2, hd2⟩ := ih (tear_down_taxi_gpio env r w).2
      exact ⟨d1 ++ d2, by rw [hd2, hd1, List.append_assoc]⟩

/-- A release loop over valid pins that fails returns the answer of the pin
manager to the last release it asked for. -/
theorem terminate_taxi_loop_fail_code (env : Env) (pins : List GpioPin) (w : World)
    (hvalid : ∀ q ∈ pins, ¬ (scu_group_of env q = 0xff ∨ scu_pin_of env q = 0xff))
    (h : (terminate_taxi_loop env pins w).1 ≠ 0) :
    ∃ g p, (terminate_taxi_loop env pins w).2.trace.getLast? =
      some (Action.pin_release_reservation g p (terminate_taxi_loop env pins w).1) := by
  induction pins generalizing w with
  | nil => simp [terminate_taxi_loop] at h
  | cons r pins ih =>
    simp only [terminate_taxi_loop] at h ⊢
    by_cases hr : (tear_down_taxi_gpio env r w).1 = 0
    · simp only [hr, ne_eq, not_true_eq_false, if_false] at h ⊢
      exact ih _ (fun q hq => hvalid q (List.mem_cons_of_mem _ hq)) h
    · simp only [ne_eq, hr, not_false_eq_true, if_true]
      refine ⟨scu_group_of env r, scu_pin_of env r, ?_⟩
      rw [tear_down_taxi_gpio_trace env r w (hvalid r (List.mem_cons_self _ _))]
      simp

/-- The calls and the code of the release loop over the three control pins, all
valid: each pin in turn is made an input and its release requested, as long as
the pin manager answers 0; the code is the first non-zero answer, or 0. -/
theorem terminate_taxi_loop_calls (env : Env) (v : World)
    (hvalid : ∀ q ∈ gpio_pins, ¬ (scu_group_of env q = 0xff ∨ scu_pin_of env q = 0xff)) :
    ∃ rc1 rc2 rc3 : Int,
      (terminate_taxi_loop env gpio_pins v).2.trace = v.trace ++
        [Action.gpio_set_pin_direction u4_oe false,
         Action.pin_release_reservation (scu_group_of env u4_oe) (scu_pin_of env u4_oe) rc1] ++
        (if rc1 = 0 then
          [Action.gpio_set_pin_direction u5_oe false,
           Action.pin_release_reservation (scu_group_of env u5_oe) (scu_pin_of env u5_oe) rc2] ++
          (if rc2 = 0 then
            [Action.gpio_set_pin_direction trigger false,
             Action.pin_release_reservation (scu_group_of env trigger)
               (scu_pin_of env trigger) rc3]
           else [])
         else []) ∧
      (terminate_taxi_loop env gpio_pins v).1 =
        (if rc1 ≠ 0 then rc1 else if rc2 ≠ 0 then rc2 else rc3) := by
  have t1 := tear_down_taxi_gpio_trace env u4_oe v (hvalid u4_oe (by decide))
  have t2 := tear_down_taxi_gpio_trace env u5_oe (tear_down_taxi_gpio env u4_oe v).2
    (hvalid u5_oe (by decide))
  have t3 := tear_down_taxi_gpio_trace env trigger
    (tear_down_taxi_gpio env u5_oe (tear_down_taxi_gpio env u4_oe v).2).2
    (hvalid trigger (by decide))
  refine ⟨(tear_down_taxi_gpio env u4_oe v).1,
    (tear_down_taxi_gpio env u5_oe (tear_down_taxi_gpio env u4_oe v).2).1,
    (tear_down_taxi_gpio env trigger
      (tear_down_taxi_gpio env u5_oe (tear_down_taxi_gpio env u4_oe v).2).2).1, ?_⟩
  simp only [gpio_pins, terminate_taxi_loop]
  by_cases h1 : (tear_down_taxi_gpio env u4_oe v).1 = 0
  · by_cases h2 : (tear_down_taxi_gpio env u5_oe (tear_down_taxi_gpio env u4_oe v).2).1 = 0
    · by_cases h3 : (tear_down_taxi_gpio env trigger
          (tear_down_taxi_gpio env u5_oe (tear_down_taxi_gpio env u4_oe v).2).2).1 = 0
      · simp only [h1, h2, h3, ne_eq, not_true_eq_false, if_false, if_true]
        rw [t3, t2, t1, h1, h2, h3]
        simp
      · simp only [h1, h2, h3, ne_eq, not_true_eq_false, not_false_eq_true, if_false, if_true]
        rw [t3, t2, t1, h1, h2]
        simp
    · simp only [h1, h2, ne_eq, not_true_eq_false, not_false_eq_true, if_false, if_true]
      rw [t2, t1, h1]
      simp
  · simp only [h1, ne_eq, not_false_eq_true, if_false, if_true]
    rw [t1]
    simp

/-- C5 (as stated, refuted): two runs that end a capture with a successful
`verb_stop` and are then in the same session state (`taxi_initialized` false).  A
second `verb_stop` returns 7 in one and 0 in the other: what it returns is what the
pin manager answers when asked to release pins that are not reserved.  In both
runs the second `verb_stop` again calls the transport, the capture engine, the
GPIO driver and the pin manager. -/
theorem second_stop_depends_on_registry :
    (verb_stop strict_env streaming_world).1 = 0 ∧
    (verb_stop quiet_env streaming_world).1 = 0 ∧
    (verb_stop strict_env streaming_world).2.taxi_initialized = false ∧
    (verb_stop quiet_env streaming_world).2.taxi_initialized = false ∧
    (verb_stop strict_env (verb_stop strict_env streaming_world).2).1 = 7 ∧
    (verb_stop quiet_env (verb_stop quiet_env streaming_world).2).1 = 0 ∧
    (verb_stop strict_env (verb_stop strict_env streaming_world).2).2.trace =
      (verb_stop strict_env streaming_world).2.trace ++
        [Action.usb_streaming_stop_streaming_to_host,
         Action.sgpio_halt,
         Action.gpio_set_pin_direction u4_oe false,
         Action.pin_release_reservation 5 2 7] ∧
    (verb_stop quiet_env (verb_stop quiet_env streaming_world).2).2.trace =
      (verb_stop quiet_env streaming_world).2.trace ++
        [Action.usb_streaming_stop_streaming_to_host,
         Action.sgpio_halt,
         Action.gpio_set_pin_direction u4_oe false,
         Action.pin_release_reservation 5 2 0,
         Action.gpio_set_pin_direction u5_oe false,
         Action.pin_release_reservation 6 4 0,
         Action.gpio_set_pin_direction trigger false,
         Action.pin_release_reservation 1 0 0] := by
  decide

/-- C5 (amended): after a successful `verb_stop`, a second consecutive `verb_stop`
runs the teardown again without looking at `taxi_initialized`: it stops the
transport, halts the capture engine, makes `u4_oe` an input and asks the pin
manager to release it, and goes on in the same way with `u5_oe` and then `trigger`
while the pin manager answers 0; these are all the calls it makes, and its code
is the first non-zero answer, or 0.  If it returns 0, the session view (flag,
registry, directions, levels,
engine, transport) is the one the first `verb_stop` left; if it returns non-zero,
the code is the answer of the pin manager to the last release request. -/
theorem second_stop_reruns_teardown (env : Env) (w : World)
    (h : (verb_stop env w).1 = 0) :
    (∃ rc1 rc2 rc3 : Int,
      (verb_stop env (verb_stop env w).2).2.trace = (verb_stop env w).2.trace ++
        [Action.usb_streaming_stop_streaming_to_host,
         Action.sgpio_halt,
         Action.gpio_set_pin_direction u4_oe false,
         Action.pin_release_reservation (scu_group_of env u4_oe) (scu_pin_of env u4_oe) rc1] ++
        (if rc1 = 0 then
          [Action.gpio_set_pin_direction u5_oe false,
           Action.pin_release_reservation (scu_group_of env u5_oe) (scu_pin_of env u5_oe) rc2] ++
          (if rc2 = 0 then
            [Action.gpio_set_pin_direction trigger false,
             Action.pin_release_reservation (scu_group_of env trigger)
               (scu_pin_of env trigger) rc3]
           else [])
         else []) ∧
      (verb_stop env (verb_stop env w).2).1 =
        (if rc1 ≠ 0 then rc1 else if rc2 ≠ 0 then rc2 else rc3)) ∧
    ((verb_stop env (verb_stop env w).2).1 = 0 →
      (verb_stop env (verb_stop env w).2).2.view = (verb_stop env w).2.view) ∧
    ((verb_stop env (verb_stop env w).2).1 ≠ 0 →
      ∃ g p, (verb_stop env (verb_stop env w).2).2.trace.getLast? =
        some (Action.pin_release_reservation g p (verb_stop env (verb_stop env w).2).1)) := by
  have hloop1 : (terminate_taxi_loop env gpio_pins
      (sgpio_halt (usb_streaming_stop_streaming_to_host w))).1 = 0 := by
    by_contra hne
    simp [verb_stop, terminate_taxi, hne] at h
  have hvalid := terminate_taxi_loop_valid_of_ok env gpio_pins _ hloop1
  obtain ⟨_, a2, a3, a4, _, a6, a7⟩ := verb_stop_succeeds env w hloop1
  have hfree1 : ∀ q ∈ gpio_pins,
      (verb_stop env w).2.reservation (scu_group_of env q) (scu_pin_of env q) = none := by
    intro q hq
    rw [a3]
    exact terminate_taxi_loop_released env gpio_pins _ hloop1 q hq
  have hin1 : ∀ q ∈ gpio_pins, (verb_stop env w).2.direction q = false := by
    intro q hq
    rw [a4]
    exact terminate_taxi_loop_inputs env gpio_pins _ hloop1 q hq
  have hstop2 : ∀ v, (verb_stop env v).1 = (terminate_taxi_loop env gpio_pins
        (sgpio_halt (usb_streaming_stop_streaming_to_host v))).1 ∧
      (verb_stop env v).2.trace = (terminate_taxi_loop env gpio_pins
        (sgpio_halt (usb_streaming_stop_streaming_to_host v))).2.trace := by
    intro v
    by_cases hz : (terminate_taxi_loop env gpio_pins
        (sgpio_halt (usb_streaming_stop_streaming_to_host v))).1 = 0
    · simp [verb_stop, terminate_taxi, hz]
    · simp [verb_stop, terminate_taxi, hz]
  refine ⟨?_, ?_, ?_⟩
  · obtain ⟨rc1, rc2, rc3, htr, hcode⟩ := terminate_taxi_loop_calls env
      (sgpio_halt (usb_streaming_stop_streaming_to_host (verb_stop env w).2)) hvalid
    refine ⟨rc1, rc2, rc3, ?_, ?_⟩
    · rw [(hstop2 _).2, htr]
      simp [sgpio_halt, usb_streaming_stop_streaming_to_host]
    · rw [(hstop2 _).1, hcode]
  · intro h2
    have hloop2 : (terminate_taxi_loop env gpio_pins (sgpio_halt
        (usb_streaming_stop_streaming_to_host (verb_stop env w).2))).1 = 0 := by
      rw [← (hstop2 _).1]
      exact h2
    obtain ⟨_, b2, b3, b4, b5, b6, b7⟩ := verb_stop_succeeds env (verb_stop env w).2 hloop2
    obtain ⟨r1, _⟩ := terminate_taxi_loop_registry env gpio_pins
      (sgpio_halt (usb_streaming_stop_streaming_to_host (verb_stop env w).2))
    obtain ⟨f1, _⟩ := terminate_taxi_loop_frame env gpio_pins
      (sgpio_halt (usb_streaming_stop_streaming_to_host (verb_stop env w).2))
    have hres : (verb_stop env (verb_stop env w).2).2.reservation
        = (verb_stop env w).2.reservation := by
      rw [b3]
      funext g p
      by_cases hcoord : ∃ q ∈ gpio_pins, g = scu_group_of env q ∧ p = scu_pin_of env q
      · obtain ⟨q, hq, rfl, rfl⟩ := hcoord
        rw [terminate_taxi_loop_released env gpio_pins _ hloop2 q hq, hfree1 q hq]
      · rw [r1 g p (fun q hq hgp => hcoord ⟨q, hq, hgp⟩)]
        rfl
    have hdir : (verb_stop env (verb_stop env w).2).2.direction
        = (verb_stop env w).2.direction := by
      rw [b4]
      funext q
      by_cases hq : q ∈ gpio_pins
      · rw [terminate_taxi_loop_inputs env gpio_pins _ hloop2 q hq, hin1 q hq]
      · rw [f1 q hq]
        rfl
    simp [World.view, b2, a2, hres, hdir, b5, b6, a6, b7, a7]
  · intro h2
    have hloop2 : (terminate_taxi_loop env gpio_pins (sgpio_halt
        (usb_streaming_stop_streaming_to_host (verb_stop env w).2))).1 ≠ 0 := by
      rw [← (hstop2 _).1]
      exact h2
    obtain ⟨g, p, hlast⟩ := terminate_taxi_loop_fail_code env gpio_pins _ hvalid hloop2
    exact ⟨g, p, by rw [(hstop2 _).2, (hstop2 _).1]; exact hlast⟩

/-- The amended C5 at work: a second `stop` after the end of a capture, with a pin
manager that answers 7 for pins that are not reserved. -/
theorem second_stop_reruns_teardown_witness :
    (verb_stop strict_env streaming_world).1 = 0 ∧
    ∃ g p, (verb_stop strict_env (verb_stop strict_env streaming_world).2).2.trace.getLast? =
      some (Action.pin_release_reservation g p
        (verb_stop strict_env (verb_stop strict_env streaming_world).2).1) :=
  ⟨by decide,
    (second_stop_reruns_teardown strict_env streaming_world (by decide)).2.2 (by decide)⟩

/-! ## Hardware writes and the registry -/

end Taxi
